import Mathlib

/-!
# tileviewer: coordinate validator and tile compositor

A shallow embedding of `main.go` of the tile server:

* `extractTileCoords` with the pattern `pathRegex`, `strconv.Atoi` and the
  machine shift `1 << uint(coords.Z)`;
* the URL builders (`fmt.Sprintf` with `%d`, `%s`, `%04d`, `%02d`);
* `imageIsOpaque` and `NearmapTilesV3OverOpenStreetMap`, with `GetImage`
  taken as a function from URL to image-or-error, the fetched URLs recorded
  in order, and `image.NewRGBA` / `draw.Draw` modelled on the generic
  (`At(x, y).RGBA()`) path of the Go standard library;
* `GetImage` over an explicit network (`http.Get`, `image.Decode`), also with
  the opened and closed response bodies as state;
* `renderTile` and the handler of `tileServer`, as a function from the request
  path to the response.

The geo converter (`LonLatToNum`, `NumToLonLat`) computes in `float64` and is
not embedded; it only feeds the two log lines of the compositor.

Go strings are `String`; Go `int` is `Int` wrapped to `intSize` bits where the
source can overflow (`intSize` is `strconv.IntSize`, 32 or 64).
-/

namespace TileViewer

deriving instance DecidableEq for Except

/-! ## Machine integers -/

/-- Two's-complement wrap of a mathematical integer into a Go `int` of
`intSize` bits. -/
def wrapInt (intSize : Nat) (v : Int) : Int :=
  let m := v % (2 : Int) ^ intSize
  if m < (2 : Int) ^ (intSize - 1) then m else m - (2 : Int) ^ intSize

/-- Go conversion `uint(v)` of an `int` of `intSize` bits. -/
def toUint (intSize : Nat) (v : Int) : Nat :=
  (v % (2 : Int) ^ intSize).toNat

/-- Go `a << s` on `int` with an unsigned count: bits shifted out are lost and
a count of at least the width gives 0. -/
def shiftLeft (intSize : Nat) (a : Int) (s : Nat) : Int :=
  if intSize ≤ s then 0 else wrapInt intSize (a * (2 : Int) ^ s)

/-! ## strconv.Atoi -/

/-- The two error values of `strconv.NumError.Err`. -/
inductive NumError where
  | ErrSyntax
  | ErrRange
  deriving DecidableEq, Repr

/-- The constant `maxUint64` of package `strconv`. -/
def maxUint64 : Nat := 18446744073709551615

/-- The digit loop of `strconv.ParseUint` in base 10: `n` is the accumulator,
`maxVal` is `1<<bitSize - 1`. A character that is no decimal digit is a
syntax error; an accumulator that would leave the range is a range error. -/
def parseUintLoop (maxVal : Nat) : Nat → List Char → Except NumError Nat
  | n, [] => .ok n
  | n, c :: cs =>
    if c.isDigit then
      if maxUint64 / 10 + 1 ≤ n then .error .ErrRange
      else
        let n1 := n * 10 + (c.toNat - '0'.toNat)
        if maxUint64 < n1 ∨ maxVal < n1 then .error .ErrRange
        else parseUintLoop maxVal n1 cs
    else .error .ErrSyntax

/-- Base-10 `strconv.ParseUint(s, 10, 0)`. -/
def ParseUint (intSize : Nat) (s : List Char) : Except NumError Nat :=
  if s = [] then .error .ErrSyntax
  else parseUintLoop (2 ^ intSize - 1) 0 s

/-- Base-10 `strconv.ParseInt(s, 10, 0)`: optional sign, then `ParseUint`,
then the signed range check against `1 << (bitSize-1)`. -/
def ParseInt (intSize : Nat) (s : List Char) : Except NumError Int :=
  match s with
  | [] => .error .ErrSyntax
  | c :: cs =>
    let neg : Bool := c == '-'
    let body := if c == '+' || c == '-' then cs else c :: cs
    match ParseUint intSize body with
    | .error e => .error e
    | .ok un =>
      let cutoff := 2 ^ (intSize - 1)
      if !neg && decide (cutoff ≤ un) then .error .ErrRange
      else if neg && decide (cutoff < un) then .error .ErrRange
      else .ok (if neg then -(un : Int) else (un : Int))

/-- Go `strconv.Atoi` (its fast path for short inputs computes the same
result as `ParseInt(s, 10, 0)`). -/
def Atoi (intSize : Nat) (s : String) : Except NumError Int :=
  ParseInt intSize s.data

/-! ## The path pattern -/

/-- A literal character of the pattern: consume it or fail. -/
def expectChar (c : Char) : List Char → Option (List Char)
  | d :: rest => if d = c then some rest else none
  | [] => none

/-- The group `(\d+)`: the longest run of ASCII digits, which must be
non-empty; returns the capture and the remaining input. -/
def digitRun (s : List Char) : Option (List Char × List Char) :=
  let run := s.takeWhile Char.isDigit
  if run = [] then none else some (run, s.dropWhile Char.isDigit)

/-- Matching of `^/(\d+)/(\d+)/(\d+)\.png$` against a whole string, giving the
three captures. Each digit group is followed by a non-digit literal, so the
greedy run is the only possible capture. -/
def pathRegexCaptures (s : List Char) : Option (List Char × List Char × List Char) := do
  let r ← expectChar '/' s
  let (z, r) ← digitRun r
  let r ← expectChar '/' r
  let (x, r) ← digitRun r
  let r ← expectChar '/' r
  let (y, r) ← digitRun r
  if r = ['.', 'p', 'n', 'g'] then some (z, x, y) else none

/-- Go `pathRegex.FindStringSubmatch(path)`: `nil` when there is no match,
otherwise the whole match followed by the three groups. -/
def FindStringSubmatch (path : String) : List String :=
  match pathRegexCaptures path.data with
  | some (z, x, y) => [path, String.mk z, String.mk x, String.mk y]
  | none => []

/-- The pattern of `pathRegex` as a regular expression over characters,
used to validate `pathRegexCaptures`. -/
def digitClass : RegularExpression Char :=
  .char '0' + .char '1' + .char '2' + .char '3' + .char '4' +
  .char '5' + .char '6' + .char '7' + .char '8' + .char '9'

/-- The regular expression `/(\d+)/(\d+)/(\d+)\.png`, anchored by being
matched against the whole input. -/
def pathRegex : RegularExpression Char :=
  .char '/' * (digitClass * .star digitClass) *
  .char '/' * (digitClass * .star digitClass) *
  .char '/' * (digitClass * .star digitClass) *
  .char '.' * .char 'p' * .char 'n' * .char 'g'

/-! ## extractTileCoords -/

/-- Go `type TileCoords struct { Z, X, Y int }`. -/
structure TileCoords where
  Z : Int
  X : Int
  Y : Int
  deriving DecidableEq, Repr

/-- The errors `extractTileCoords` builds with `fmt.Errorf`, one constructor
per format string. -/
inductive TileError where
  /-- The message "not enough matches, got %d". -/
  | notEnoughMatches (got : Nat)
  /-- The message "extracting z: %v". -/
  | extractingZ (err : NumError)
  /-- The message "extracting x: %v". -/
  | extractingX (err : NumError)
  /-- The message "extracting y: %v". -/
  | extractingY (err : NumError)
  /-- The message "invalid tile coordinates: %v". -/
  | invalidTileCoordinates (coords : TileCoords)
  deriving DecidableEq, Repr

/-- Go `extractTileCoords(path)`. -/
def extractTileCoords (intSize : Nat) (path : String) : Except TileError TileCoords :=
  match FindStringSubmatch path with
  | [_, m1, m2, m3] =>
    match Atoi intSize m1 with
    | .error e => .error (.extractingZ e)
    | .ok z =>
      match Atoi intSize m2 with
      | .error e => .error (.extractingX e)
      | .ok x =>
        match Atoi intSize m3 with
        | .error e => .error (.extractingY e)
        | .ok y =>
          let max := shiftLeft intSize 1 (toUint intSize z)
          if x < 0 ∨ x ≥ max ∨ y < 0 ∨ y ≥ max then
            .error (.invalidTileCoordinates ⟨z, x, y⟩)
          else .ok ⟨z, x, y⟩
  | ms => .error (.notEnoughMatches ms.length)

/-! ## fmt.Sprintf verbs and the URL builders -/

/-- The verb `%d` of `fmt.Sprintf` on an `int`. -/
def formatInt (v : Int) : String :=
  if v < 0 then String.mk ('-' :: Nat.toDigits 10 v.natAbs)
  else String.mk (Nat.toDigits 10 v.natAbs)

/-- The verb `%0Nd` of `fmt.Sprintf` on an `int`: zero padding up to `width`
characters, a minus sign counting as one of them. -/
def formatIntZeroPad (width : Nat) (v : Int) : String :=
  let ds := Nat.toDigits 10 v.natAbs
  if v < 0 then String.mk ('-' :: (List.replicate (width - 1 - ds.length) '0' ++ ds))
  else String.mk (List.replicate (width - ds.length) '0' ++ ds)

/-- Go `const TilesTypeVert`. -/
def TilesTypeVert : String := "Vert"

/-- Go `const TilesTypeDSM`. -/
def TilesTypeDSM : String := "Dsm"

/-- Go `const TilesTypeDEM`. -/
def TilesTypeDEM : String := "Dem"

/-- Go `OpenStreetMapURL(x, y, z)`. -/
def OpenStreetMapURL (x y z : Int) : String :=
  "https://tile.openstreetmap.org/" ++ formatInt z ++ "/" ++ formatInt x ++ "/" ++
    formatInt y ++ ".png"

/-- Go `NearmapTilesV3IMGURL(x, y, z, tilestype, apikey)`. -/
def NearmapTilesV3IMGURL (x y z : Int) (tilestype apikey : String) : String :=
  "https://api.nearmap.com/tiles/v3/" ++ tilestype ++ "/" ++ formatInt z ++ "/" ++
    formatInt x ++ "/" ++ formatInt y ++ ".img?apikey=" ++ apikey

/-- Go `NearmapTilesV3DateIMGURL(x, y, z, tilestype, apikey, year)`. -/
def NearmapTilesV3DateIMGURL (x y z : Int) (tilestype apikey : String) (year : Int) : String :=
  "https://api.nearmap.com/tiles/v3/" ++ tilestype ++ "/" ++ formatInt z ++ "/" ++
    formatInt x ++ "/" ++ formatInt y ++ ".img?since=" ++
    formatIntZeroPad 4 year ++ "-" ++ formatIntZeroPad 2 1 ++ "-" ++ formatIntZeroPad 2 1 ++
    "&until=" ++
    formatIntZeroPad 4 year ++ "-" ++ formatIntZeroPad 2 12 ++ "-" ++ formatIntZeroPad 2 31 ++
    "&apikey=" ++ apikey

/-! ## Package image: points, rectangles, colours, images -/

/-- Go `image.Point`. -/
structure Point where
  X : Int
  Y : Int
  deriving DecidableEq, Repr

/-- Go `image.Rectangle`. -/
structure Rectangle where
  Min : Point
  Max : Point
  deriving DecidableEq, Repr

/-- Go `image.Pt`. -/
def Pt (x y : Int) : Point := ⟨x, y⟩

/-- Go `image.Rect`: the corners are put in order. -/
def Rect (x0 y0 x1 y1 : Int) : Rectangle :=
  let (a0, a1) := if x0 > x1 then (x1, x0) else (x0, x1)
  let (b0, b1) := if y0 > y1 then (y1, y0) else (y0, y1)
  ⟨⟨a0, b0⟩, ⟨a1, b1⟩⟩

/-- Go `Point.Add`. -/
def Point.Add (p q : Point) : Point := ⟨p.X + q.X, p.Y + q.Y⟩

/-- Go `Point.Sub`. -/
def Point.Sub (p q : Point) : Point := ⟨p.X - q.X, p.Y - q.Y⟩

/-- Go `Point.In`. -/
def Point.In (p : Point) (r : Rectangle) : Bool :=
  decide (r.Min.X ≤ p.X) && decide (p.X < r.Max.X) &&
  decide (r.Min.Y ≤ p.Y) && decide (p.Y < r.Max.Y)

/-- Go `Rectangle.Empty`. -/
def Rectangle.Empty (r : Rectangle) : Bool :=
  decide (r.Min.X ≥ r.Max.X) || decide (r.Min.Y ≥ r.Max.Y)

/-- Go `Rectangle.Add`. -/
def Rectangle.Add (r : Rectangle) (p : Point) : Rectangle :=
  ⟨r.Min.Add p, r.Max.Add p⟩

/-- Go `Rectangle.Intersect`: the zero rectangle when the overlap is empty. -/
def Rectangle.Intersect (r s : Rectangle) : Rectangle :=
  let t : Rectangle :=
    ⟨⟨if r.Min.X < s.Min.X then s.Min.X else r.Min.X,
      if r.Min.Y < s.Min.Y then s.Min.Y else r.Min.Y⟩,
     ⟨if r.Max.X > s.Max.X then s.Max.X else r.Max.X,
      if r.Max.Y > s.Max.Y then s.Max.Y else r.Max.Y⟩⟩
  if t.Empty then ⟨⟨0, 0⟩, ⟨0, 0⟩⟩ else t

/-- What `color.Color.RGBA()` returns: four `uint32`, alpha-premultiplied,
each in `[0, 0xffff]` for a well-formed colour. -/
structure Color where
  R : Nat
  G : Nat
  B : Nat
  A : Nat
  deriving DecidableEq, Repr

/-- A well-formed alpha-premultiplied colour: alpha at most `0xffff` and no
channel above alpha. -/
def Color.Valid (c : Color) : Prop :=
  c.A ≤ 65535 ∧ c.R ≤ c.A ∧ c.G ≤ c.A ∧ c.B ≤ c.A

instance (c : Color) : Decidable c.Valid := by
  unfold Color.Valid
  exact inferInstance

/-- Go `color.Model` values: the standard models of package `image/color`, a
palette (`color.Palette` is itself a model) and any other model. -/
inductive Model where
  | RGBAModel
  | RGBA64Model
  | NRGBAModel
  | NRGBA64Model
  | AlphaModel
  | Alpha16Model
  | GrayModel
  | Gray16Model
  | CMYKModel
  | YCbCrModel
  | NYCbCrAModel
  | Palette (entries : List Color)
  | Other (id : Nat)
  deriving DecidableEq, Repr

/-- Go `image.Image`: colour model, bounds, and the colour at each point
(as its `RGBA()` value). -/
structure Image where
  ColorModel : Model
  Bounds : Rectangle
  At : Int → Int → Color

/-- Go `color.RGBA`: four `uint8` channels, alpha-premultiplied. -/
structure RGBA where
  R : Nat
  G : Nat
  B : Nat
  A : Nat
  deriving DecidableEq, Repr

/-- Go `*image.RGBA`: the pixel store (addressed by coordinates rather than by
offset into `Pix`) and the bounds. -/
structure RGBAImage where
  Pix : Int → Int → RGBA
  Rect : Rectangle

/-- Go `image.NewRGBA`: every byte of the pixel store is zero. -/
def NewRGBA (r : Rectangle) : RGBAImage :=
  ⟨fun _ _ => ⟨0, 0, 0, 0⟩, r⟩

/-- Go `color.RGBA.RGBA()`: each 8-bit channel `c` becomes `c | c << 8`. -/
def RGBA.rgba (c : RGBA) : Color :=
  ⟨c.R * 257, c.G * 257, c.B * 257, c.A * 257⟩

/-- Go `(*image.RGBA).At`: the zero colour outside the bounds. -/
def RGBAImage.At (p : RGBAImage) (x y : Int) : Color :=
  if (Point.mk x y).In p.Rect then (p.Pix x y).rgba else (RGBA.mk 0 0 0 0).rgba

/-- An `*image.RGBA` used as an `image.Image`. -/
def RGBAImage.toImage (p : RGBAImage) : Image :=
  ⟨.RGBAModel, p.Rect, p.At⟩

/-! ## Package image/draw -/

/-- Reduction to `uint32`. -/
def u32 (n : Nat) : Nat := n % 4294967296

/-- Subtraction on `uint32`. -/
def u32sub (a b : Nat) : Nat := (a % 4294967296 + 4294967296 - b % 4294967296) % 4294967296

/-- Conversion `uint8(n)`. -/
def u8 (n : Nat) : Nat := n % 256

/-- One channel of the `Over` branch of `drawRGBA` with a nil mask
(`ma = m = 1<<16 - 1`): `uint8((d*a + s*ma) / m >> 8)`. -/
def overChannel (d a s : Nat) : Nat :=
  u8 (u32 (u32 (d * a) + u32 (s * 65535)) / 65535 / 256)

/-- The `Over` branch of `drawRGBA` at one pixel, nil mask: `d` is the
destination pixel, `s` the source colour as returned by `RGBA()`;
`a := (m - (sa * ma / m)) * 0x101`. -/
def overPixel (d : RGBA) (s : Color) : RGBA :=
  let a := u32 (u32sub 65535 (u32 (s.A * 65535) / 65535) * 257)
  ⟨overChannel d.R a s.R, overChannel d.G a s.G, overChannel d.B a s.B, overChannel d.A a s.A⟩

/-- Go `draw.Draw(dst, r, src, sp, draw.Over)` for a destination of type
`*image.RGBA`: `r` is clipped to the destination bounds and to the source
bounds moved by `r.Min - sp`, `sp` is moved along, and each pixel of the
clipped rectangle is replaced by source-over-destination. The type-specific
fast paths of `DrawMask` compute what the generic `drawRGBA` loop computes,
which is the loop embedded here. -/
def Draw (dst : RGBAImage) (r : Rectangle) (src : Image) (sp : Point) : RGBAImage :=
  let orig := r.Min
  let r1 := r.Intersect dst.Rect
  let r2 := r1.Intersect (src.Bounds.Add (orig.Sub sp))
  let sp2 : Point := ⟨sp.X + (r2.Min.X - orig.X), sp.Y + (r2.Min.Y - orig.Y)⟩
  if r2.Empty then dst
  else
    { dst with
      Pix := fun x y =>
        if (Point.mk x y).In r2 then
          overPixel (dst.Pix x y) (src.At (sp2.X + (x - r2.Min.X)) (sp2.Y + (y - r2.Min.Y)))
        else dst.Pix x y }

/-! ## GetImage and the compositor -/

/-- Go `*http.Response`, the parts `GetImage` reads. -/
structure Response where
  StatusCode : Int
  Body : List Nat

/-- The outside world of `GetImage`: `http.Get` (a transport error or a
response) and `image.Decode` (a decode error or an image). -/
structure Net where
  Get : String → Except String Response
  Decode : List Nat → Except String Image

/-- The errors `GetImage` returns. -/
inductive GetImageError where
  /-- The value `errors.New("error fetching image")`. -/
  | errorFetchingImage
  /-- The error of `image.Decode`, returned as is. -/
  | decode (err : String)
  deriving DecidableEq, Repr

/-- Go `GetImage(url)`. -/
def GetImage (net : Net) (url : String) : Except GetImageError Image :=
  match net.Get url with
  | .error _ => .error .errorFetchingImage
  | .ok response =>
    if response.StatusCode ≠ 200 then .error .errorFetchingImage
    else
      match net.Decode response.Body with
      | .error err => .error (.decode err)
      | .ok img => .ok img

/-- Go `imageIsOpaque(img)`. -/
def imageIsOpaque (img : Image) : Bool :=
  match img.ColorModel with
  | .RGBAModel | .RGBA64Model | .NRGBAModel | .NRGBA64Model | .AlphaModel | .Alpha16Model => false
  | _ => true

/-- Go `const tileSize = 256`. -/
def tileSize : Int := 256

/-- Go `NearmapTilesV3OverOpenStreetMap(x, y, z, tilestype, apikey, year)`.
The result is the returned image together with the URLs passed to `GetImage`,
in call order. The two `fmt.Printf` lines (and `NumToLonLat`, which only feeds
them) do not influence the returned image and are left out. -/
def NearmapTilesV3OverOpenStreetMap (net : Net) (x y z : Int) (tilestype apikey : String)
    (year : Int) : Image × List String :=
  let r := Rect 0 0 tileSize tileSize
  let p := Pt 0 0
  let url :=
    if year ≥ 2000 then NearmapTilesV3DateIMGURL x y z tilestype apikey year
    else NearmapTilesV3IMGURL x y z tilestype apikey
  let nmResult := GetImage net url
  let primaryOpaque : Option Image :=
    match nmResult with
    | .ok nm => if imageIsOpaque nm then some nm else none
    | .error _ => none
  match primaryOpaque with
  | some nm => (nm, [url])
  | none =>
    let url2 := OpenStreetMapURL x y z
    let osmResult := GetImage net url2
    match nmResult, osmResult with
    | .error _, .error _ => ((NewRGBA r).toImage, [url, url2])
    | .ok nm, .error _ => (nm, [url, url2])
    | .error _, .ok osm => (osm, [url, url2])
    | .ok nm, .ok osm =>
      let tile := NewRGBA r
      let tile := Draw tile r osm p
      let tile := Draw tile r nm p
      (tile.toImage, [url, url2])

/-! ## GetImage with the response bodies as state -/

/-- The response bodies seen so far: how many `http.Get` has handed out with
a response, and how many of them have been closed. -/
structure Bodies where
  Opened : Nat
  Closed : Nat
  deriving DecidableEq, Repr

/-- Go `GetImage(url)` with the response bodies tracked. `http.Get` hands out
an open body whenever it returns a response. The early `return` for a
non-200 status comes before `defer response.Body.Close()` is registered; past
that line the deferred `Close` runs on every return. -/
def GetImageBodies (net : Net) (url : String) (s : Bodies) :
    Except GetImageError Image × Bodies :=
  match net.Get url with
  | .error _ => (.error .errorFetchingImage, s)
  | .ok response =>
    let s1 : Bodies := ⟨s.Opened + 1, s.Closed⟩
    if response.StatusCode ≠ 200 then (.error .errorFetchingImage, s1)
    else
      let s2 : Bodies := ⟨s1.Opened, s1.Closed + 1⟩
      match net.Decode response.Body with
      | .error err => (.error (.decode err), s2)
      | .ok img => (.ok img, s2)

/-! ## renderTile and tileServer -/

/-- Go `renderTile(coords)`; `apikey` is the value of
`os.Getenv("APIKEYPROD")`. The result carries the fetched URLs of the
compositor. -/
def renderTile (net : Net) (apikey : String) (coords : TileCoords) : Image × List String :=
  NearmapTilesV3OverOpenStreetMap net coords.X coords.Y coords.Z TilesTypeVert apikey 0

/-- One write to the `http.ResponseWriter`: text or raw bytes. -/
inductive BodyPart where
  | text (s : String)
  | bytes (b : List Nat)
  deriving DecidableEq, Repr

/-- What one request to the handler of `tileServer` produces: the status
line, the `Content-Type` the handler sets itself, the writes to the body in
order, the URLs fetched, and the errors passed to `log.Println`. -/
structure HandlerResult where
  StatusCode : Nat
  ContentType : Option String
  Body : List BodyPart
  Fetched : List String
  Logged : List TileError
  deriving DecidableEq, Repr

/-- Go `tileServer()` applied to a request with path `path`. `pngEncode` is
`png.Encode`: the bytes it wrote to the response and its error, if any.
`http.Error` sets a plain-text content type, writes the status and prints the
message followed by a newline. On an encoding error `WriteHeader(500)` only
takes effect when nothing has been written yet. -/
def tileServer (intSize : Nat) (net : Net) (apikey : String)
    (pngEncode : Image → List Nat × Option String) (path : String) : HandlerResult :=
  match extractTileCoords intSize path with
  | .error err =>
    { StatusCode := 400, ContentType := some "text/plain; charset=utf-8",
      Body := [.text "bad request\n"], Fetched := [], Logged := [err] }
  | .ok coords =>
    let rendered := renderTile net apikey coords
    match pngEncode rendered.1 with
    | (written, none) =>
      { StatusCode := 200, ContentType := none, Body := [.bytes written],
        Fetched := rendered.2, Logged := [] }
    | (written, some err) =>
      { StatusCode := if written = [] then 500 else 200, ContentType := none,
        Body := [.bytes written, .text ("internal server error: " ++ err)],
        Fetched := rendered.2, Logged := [] }

/-! ## Spec-side vocabulary for paths -/

/-- A non-empty run of ASCII decimal digits. -/
def IsDigits (s : String) : Prop :=
  s.data ≠ [] ∧ ∀ c ∈ s.data, c.isDigit = true

instance : DecidablePred IsDigits := fun s => by
  unfold IsDigits
  exact inferInstance

/-- The number a digit run denotes in base 10, continuing from `n`. -/
def digitsValue (n : Nat) (ds : List Char) : Nat :=
  ds.foldl (fun acc c => acc * 10 + (c.toNat - '0'.toNat)) n

/-- The number a digit string denotes in base 10. -/
def decimalValue (s : String) : Nat := digitsValue 0 s.data

/-- The path "/" a "/" b "/" c ".png". -/
def shapePath (a b c : String) : String :=
  "/" ++ a ++ "/" ++ b ++ "/" ++ c ++ ".png"

/-- The path "/<z>/<x>/<y>.png" with z, x, y rendered in decimal. -/
def tilePath (z x y : Int) : String :=
  shapePath (formatInt z) (formatInt x) (formatInt y)

/-- The URL `NearmapTilesV3OverOpenStreetMap` builds first: the dated one when
`year ≥ 2000`, otherwise the undated one. -/
def primaryURL (x y z : Int) (tilestype apikey : String) (year : Int) : String :=
  if year ≥ 2000 then NearmapTilesV3DateIMGURL x y z tilestype apikey year
  else NearmapTilesV3IMGURL x y z tilestype apikey

/-- The rectangle (0,0)-(256,256) of a standard tile. -/
def tileRect : Rectangle := ⟨⟨0, 0⟩, ⟨256, 256⟩⟩

/-- A test double for the network: every GET answers 200 with the URL as
body, and decoding gives `fallback` for a URL of the basemap host (its ninth
character is `t`) and `primary` for any other URL. -/
def stubNet (primary fallback : Except String Image) : Net where
  Get := fun url => .ok ⟨200, url.data.map Char.toNat⟩
  Decode := fun body => if body.get? 8 = some 't'.toNat then fallback else primary

/-- An image of one colour with the tile bounds. -/
def uniformTile (model : Model) (c : Color) : Image :=
  ⟨model, tileRect, fun _ _ => c⟩

/-- An opaque mid-grey tile, as a decoded JPEG (Y'CbCr) gives. -/
def greyTile : Image := uniformTile .YCbCrModel ⟨32768, 32768, 32768, 65535⟩

/-- An opaque white tile. -/
def whiteTile : Image := uniformTile .GrayModel ⟨65535, 65535, 65535, 65535⟩

/-- A half-transparent red tile with an alpha-bearing model. -/
def halfRedTile : Image := uniformTile .NRGBAModel ⟨32768, 0, 0, 32768⟩

/-- One 8-bit channel of the composite, written from the colours that
`RGBA()` returns (16-bit, alpha-premultiplied): `p` the primary channel, `pa`
the primary alpha, `f` the fallback channel. It is
`p + f * (1 - pa/65535)` in the fixed-point arithmetic of package `draw`:
the fallback is first stored in 8 bits (`f / 256`), widened by `257`, weighted
by `65535 - pa`, added to `p`, and cut back to 8 bits. -/
def overBlend8 (p pa f : Nat) : Nat :=
  ((f / 256) * (257 * (65535 - pa)) + p * 65535) / 65535 / 256

/-- An opaque grey image of 512x512 pixels. -/
def bigGreyTile : Image :=
  ⟨.YCbCrModel, ⟨⟨0, 0⟩, ⟨512, 512⟩⟩, fun _ _ => ⟨32768, 32768, 32768, 65535⟩⟩

/-- A tile as the PNG decoder gives for a paletted file whose single palette
entry is fully transparent: the colour model is the palette itself. -/
def transparentPalettedTile : Image :=
  uniformTile (.Palette [⟨0, 0, 0, 0⟩]) ⟨0, 0, 0, 0⟩

/-- A test double for the network in which every GET is answered with
status 404 and an empty body. -/
def notFoundNet : Net where
  Get := fun _ => .ok ⟨404, []⟩
  Decode := fun _ => .error "not an image"

/-- A half-transparent black tile as an 8-bit NRGBA image gives it:
`color.NRGBA{0, 0, 0, 128}`, whose `RGBA()` is (0, 0, 0, 128 * 0x101). -/
def halfBlackTile : Image := uniformTile .NRGBAModel ⟨0, 0, 0, 32896⟩

/-- An opaque grey tile as an 8-bit gray image gives it: `color.Gray{100}`,
whose `RGBA()` is (100 * 0x101, 100 * 0x101, 100 * 0x101, 0xffff). -/
def grey100Tile : Image := uniformTile .GrayModel ⟨25700, 25700, 25700, 65535⟩

/-! ## Lemmas: digits and their values -/

theorem digitsValue_cons (n : Nat) (c : Char) (cs : List Char) :
    digitsValue n (c :: cs) = digitsValue (n * 10 + (c.toNat - '0'.toNat)) cs := rfl

theorem le_digitsValue (cs : List Char) : ∀ n, n ≤ digitsValue n cs := by
  induction cs with
  | nil => intro n; exact Nat.le_refl n
  | cons c cs ih =>
    intro n
    rw [digitsValue_cons]
    exact Nat.le_trans (by omega) (ih _)

theorem digitChar_isDigit (k : Nat) (hk : k < 10) :
    (Nat.digitChar k).isDigit = true ∧ (Nat.digitChar k).toNat - '0'.toNat = k := by
  interval_cases k <;> exact ⟨by decide, by decide⟩

theorem toDigitsCore_digits (fuel : Nat) :
    ∀ n ds, (∀ c ∈ ds, c.isDigit = true) →
      ∀ c ∈ Nat.toDigitsCore 10 fuel n ds, c.isDigit = true := by
  induction fuel with
  | zero => intro n ds h; simpa [Nat.toDigitsCore] using h
  | succ fuel ih =>
    intro n ds h
    have hd := (digitChar_isDigit (n % 10) (Nat.mod_lt _ (by decide))).1
    have h2 : ∀ c ∈ Nat.digitChar (n % 10) :: ds, c.isDigit = true := by
      intro c hc
      rcases List.mem_cons.mp hc with rfl | hc
      · exact hd
      · exact h c hc
    simp only [Nat.toDigitsCore]
    split
    · exact h2
    · exact ih _ _ h2

theorem toDigitsCore_value (fuel : Nat) :
    ∀ n ds, n < fuel →
      digitsValue 0 (Nat.toDigitsCore 10 fuel n ds) = digitsValue n ds := by
  induction fuel with
  | zero => intro n ds h; omega
  | succ fuel ih =>
    intro n ds h
    have hd := (digitChar_isDigit (n % 10) (Nat.mod_lt _ (by decide))).2
    simp only [Nat.toDigitsCore]
    split
    · rename_i h0
      rw [digitsValue_cons, hd]
      congr 1
      omega
    · rename_i h0
      rw [ih (n / 10) _ (by omega), digitsValue_cons, hd]
      congr 1
      omega

theorem toDigitsCore_ne_nil (fuel n : Nat) (ds : List Char) (h : 0 < fuel) :
    Nat.toDigitsCore 10 fuel n ds ≠ [] := by
  induction fuel generalizing n ds with
  | zero => omega
  | succ fuel ih =>
    simp only [Nat.toDigitsCore]
    split
    · simp
    · rename_i h0
      cases fuel with
      | zero => simp [Nat.toDigitsCore]
      | succ f => exact ih _ _ (by omega)

theorem formatInt_natCast (n : Nat) : formatInt (n : Int) = String.mk (Nat.toDigits 10 n) := by
  have : ¬ ((n : Int) < 0) := by omega
  simp [formatInt, this]

theorem isDigits_formatInt (n : Nat) : IsDigits (formatInt (n : Int)) := by
  rw [formatInt_natCast]
  refine ⟨toDigitsCore_ne_nil _ _ _ (by omega), ?_⟩
  exact toDigitsCore_digits _ _ _ (by simp)

theorem decimalValue_formatInt (n : Nat) : decimalValue (formatInt (n : Int)) = n := by
  rw [formatInt_natCast]
  show digitsValue 0 (Nat.toDigitsCore 10 (n + 1) n []) = n
  rw [toDigitsCore_value _ _ _ (by omega)]
  rfl

/-! ## Lemmas: strconv on digit runs -/

theorem parseUintLoop_digits (maxVal : Nat) (hmax : maxVal ≤ maxUint64) (cs : List Char) :
    ∀ n, n ≤ maxVal → (∀ c ∈ cs, c.isDigit = true) →
      parseUintLoop maxVal n cs =
        if digitsValue n cs ≤ maxVal then .ok (digitsValue n cs) else .error .ErrRange := by
  induction cs with
  | nil =>
    intro n hn _
    simp [parseUintLoop, digitsValue, hn]
  | cons c cs ih =>
    intro n hn hds
    have hc : c.isDigit = true := hds c (List.mem_cons_self _ _)
    have hrest : ∀ d ∈ cs, d.isDigit = true := fun d hd => hds d (List.mem_cons_of_mem _ hd)
    have hle := le_digitsValue cs (n * 10 + (c.toNat - '0'.toNat))
    unfold maxUint64 at hmax
    rw [digitsValue_cons]
    simp only [parseUintLoop, hc, if_true, maxUint64]
    split
    · rename_i h1
      have : ¬ digitsValue (n * 10 + (c.toNat - '0'.toNat)) cs ≤ maxVal := by omega
      rw [if_neg this]
    · split
      · rename_i h1 h2
        have : ¬ digitsValue (n * 10 + (c.toNat - '0'.toNat)) cs ≤ maxVal := by omega
        rw [if_neg this]
      · rename_i h1 h2
        exact ih _ (by omega) hrest

theorem isDigit_ne_sign (c : Char) (h : c.isDigit = true) : c ≠ '+' ∧ c ≠ '-' := by
  constructor <;> (rintro rfl; exact absurd h (by decide))

theorem ParseInt_digits (intSize : Nat) (h1 : 1 ≤ intSize) (h64 : intSize ≤ 64)
    (ds : List Char) (hne : ds ≠ []) (hds : ∀ c ∈ ds, c.isDigit = true) :
    ParseInt intSize ds =
      if digitsValue 0 ds < 2 ^ (intSize - 1) then .ok (digitsValue 0 ds : Int)
      else .error .ErrRange := by
  obtain ⟨c, cs, rfl⟩ := List.exists_cons_of_ne_nil hne
  have hc := isDigit_ne_sign c (hds c (List.mem_cons_self _ _))
  have hmax : 2 ^ intSize - 1 ≤ maxUint64 := by
    have : 2 ^ intSize ≤ 2 ^ 64 := Nat.pow_le_pow_right (by decide) h64
    unfold maxUint64
    omega
  have hpow : 2 ^ intSize = 2 * 2 ^ (intSize - 1) := by
    obtain ⟨k, rfl⟩ : ∃ k, intSize = k + 1 := ⟨intSize - 1, by omega⟩
    simp [pow_succ, Nat.mul_comm]
  have hpos : 0 < 2 ^ (intSize - 1) := Nat.pos_pow_of_pos _ (by decide)
  have hb1 : (c == '+') = false := by simpa using hc.1
  have hb2 : (c == '-') = false := by simpa using hc.2
  have hU : ParseUint intSize (c :: cs) =
      if digitsValue 0 (c :: cs) ≤ 2 ^ intSize - 1 then .ok (digitsValue 0 (c :: cs))
      else .error .ErrRange := by
    simp only [ParseUint, reduceCtorEq, if_false]
    exact parseUintLoop_digits _ hmax _ 0 (Nat.zero_le _) hds
  simp only [ParseInt, hb1, hb2, Bool.or_self, Bool.false_eq_true, if_false, hU]
  by_cases hv : digitsValue 0 (c :: cs) < 2 ^ (intSize - 1)
  · have : digitsValue 0 (c :: cs) ≤ 2 ^ intSize - 1 := by omega
    have h3 : ¬ (2 ^ (intSize - 1) ≤ digitsValue 0 (c :: cs)) := by omega
    simp [this, hv, h3, hc.2]
  · by_cases hu : digitsValue 0 (c :: cs) ≤ 2 ^ intSize - 1
    · have h3 : 2 ^ (intSize - 1) ≤ digitsValue 0 (c :: cs) := by omega
      simp [hu, hv, h3, hc.2]
    · simp [hu, hv]

theorem Atoi_digits (intSize : Nat) (h1 : 1 ≤ intSize) (h64 : intSize ≤ 64)
    (s : String) (hs : IsDigits s) :
    Atoi intSize s =
      if decimalValue s < 2 ^ (intSize - 1) then .ok (decimalValue s : Int)
      else .error .ErrRange :=
  ParseInt_digits intSize h1 h64 s.data hs.1 hs.2

/-! ## Lemmas: the machine shift -/

theorem shiftLeft_one_le (intSize s : Nat) : shiftLeft intSize 1 s ≤ (2 : Int) ^ s := by
  have hpos : (0 : Int) < 2 ^ s := by positivity
  have hposw : (0 : Int) < 2 ^ intSize := by positivity
  unfold shiftLeft
  split
  · exact le_of_lt hpos
  · rename_i h
    have hlt : (2 : Int) ^ s < 2 ^ intSize :=
      pow_lt_pow_right₀ (by norm_num) (by omega)
    have hm : (1 * (2 : Int) ^ s) % 2 ^ intSize = 2 ^ s := by
      rw [one_mul]
      exact Int.emod_eq_of_lt (le_of_lt hpos) hlt
    simp only [wrapInt, hm]
    split
    · exact le_refl _
    · omega

theorem shiftLeft_one_eq (intSize s : Nat) (h : s + 2 ≤ intSize) :
    shiftLeft intSize 1 s = (2 : Int) ^ s := by
  have hpos : (0 : Int) < 2 ^ s := by positivity
  have hlt : (2 : Int) ^ s < 2 ^ intSize :=
    pow_lt_pow_right₀ (by norm_num) (by omega)
  have hlt2 : (2 : Int) ^ s < 2 ^ (intSize - 1) :=
    pow_lt_pow_right₀ (by norm_num) (by omega)
  have hm : (1 * (2 : Int) ^ s) % 2 ^ intSize = 2 ^ s := by
    rw [one_mul]
    exact Int.emod_eq_of_lt (le_of_lt hpos) hlt
  have hns : ¬ intSize ≤ s := by omega
  simp only [shiftLeft, hns, if_false, wrapInt, hm, hlt2, if_true]

theorem shiftLeft_one_nonpos (intSize s : Nat) (h : intSize ≤ s + 1) :
    shiftLeft intSize 1 s ≤ 0 := by
  unfold shiftLeft
  split
  · exact le_refl _
  · rename_i hns
    have hs : s = intSize - 1 := by omega
    have hw : intSize = s + 1 := by omega
    have hpos : (0 : Int) < 2 ^ s := by positivity
    have hlt : (2 : Int) ^ s < 2 ^ intSize :=
      pow_lt_pow_right₀ (by norm_num) (by omega)
    have hm : (1 * (2 : Int) ^ s) % 2 ^ intSize = 2 ^ s := by
      rw [one_mul]
      exact Int.emod_eq_of_lt (le_of_lt hpos) hlt
    simp only [wrapInt, hm]
    rw [← hs]
    simp only [lt_self_iff_false, if_false]
    omega

theorem toUint_natCast (intSize n : Nat) (h : n < 2 ^ (intSize - 1)) :
    toUint intSize (n : Int) = n := by
  have hle : 2 ^ (intSize - 1) ≤ 2 ^ intSize := Nat.pow_le_pow_right (by decide) (by omega)
  have hlt : (n : Int) < 2 ^ intSize := by
    have : n < 2 ^ intSize := by omega
    exact_mod_cast this
  unfold toUint
  rw [Int.emod_eq_of_lt (by omega) hlt]
  simp

/-! ## Lemmas: the pattern -/

theorem takeWhile_digits_append (a : List Char) (d : Char) (rest : List Char)
    (ha : ∀ c ∈ a, c.isDigit = true) (hd : d.isDigit = false) :
    (a ++ d :: rest).takeWhile Char.isDigit = a ∧
      (a ++ d :: rest).dropWhile Char.isDigit = d :: rest := by
  induction a with
  | nil => simp [List.takeWhile, List.dropWhile, hd]
  | cons c cs ih =>
    have hc : c.isDigit = true := ha c (List.mem_cons_self _ _)
    have := ih (fun x hx => ha x (List.mem_cons_of_mem _ hx))
    simp [List.takeWhile, List.dropWhile, hc, this]

theorem digitRun_append (a : List Char) (d : Char) (rest : List Char)
    (hne : a ≠ []) (ha : ∀ c ∈ a, c.isDigit = true) (hd : d.isDigit = false) :
    digitRun (a ++ d :: rest) = some (a, d :: rest) := by
  have h := takeWhile_digits_append a d rest ha hd
  simp [digitRun, h.1, h.2, hne]

theorem digitRun_some (s a r : List Char) (h : digitRun s = some (a, r)) :
    s = a ++ r ∧ a ≠ [] ∧ (∀ c ∈ a, c.isDigit = true) := by
  unfold digitRun at h
  simp only at h
  split at h
  · exact absurd h (by simp)
  · rename_i hne
    simp only [Option.some.injEq, Prod.mk.injEq] at h
    obtain ⟨h1, h2⟩ := h
    refine ⟨?_, ?_, ?_⟩
    · rw [← h1, ← h2]; exact (List.takeWhile_append_dropWhile _ _).symm
    · rw [← h1]; exact hne
    · intro c hc
      rw [← h1] at hc
      exact (List.mem_takeWhile_imp hc)

theorem expectChar_some (c : Char) (s r : List Char) (h : expectChar c s = some r) :
    s = c :: r := by
  cases s with
  | nil => simp [expectChar] at h
  | cons d rest =>
    simp only [expectChar] at h
    split at h
    · rename_i hd
      simp only [Option.some.injEq] at h
      rw [hd, h]
    · exact absurd h (by simp)

theorem pathRegexCaptures_shape (a b c : List Char)
    (ha : a ≠ [] ∧ ∀ x ∈ a, x.isDigit = true) (hb : b ≠ [] ∧ ∀ x ∈ b, x.isDigit = true)
    (hc : c ≠ [] ∧ ∀ x ∈ c, x.isDigit = true) :
    pathRegexCaptures ('/' :: (a ++ '/' :: (b ++ '/' :: (c ++ ['.', 'p', 'n', 'g'])))) =
      some (a, b, c) := by
  have h1 := digitRun_append a '/' (b ++ '/' :: (c ++ ['.', 'p', 'n', 'g'])) ha.1 ha.2 (by decide)
  have h2 := digitRun_append b '/' (c ++ ['.', 'p', 'n', 'g']) hb.1 hb.2 (by decide)
  have h3 := digitRun_append c '.' ['p', 'n', 'g'] hc.1 hc.2 (by decide)
  simp [pathRegexCaptures, expectChar, h1, h2, h3]

theorem pathRegexCaptures_some (s a b c : List Char) (h : pathRegexCaptures s = some (a, b, c)) :
    s = '/' :: (a ++ '/' :: (b ++ '/' :: (c ++ ['.', 'p', 'n', 'g']))) ∧
      (a ≠ [] ∧ ∀ x ∈ a, x.isDigit = true) ∧ (b ≠ [] ∧ ∀ x ∈ b, x.isDigit = true) ∧
      (c ≠ [] ∧ ∀ x ∈ c, x.isDigit = true) := by
  unfold pathRegexCaptures at h
  simp only [Option.bind_eq_bind, Option.bind_eq_some] at h
  obtain ⟨r0, e0, ⟨z, r1⟩, e1, r2, e2, ⟨x, r3⟩, e3, r4, e4, ⟨y, r5⟩, e5, h⟩ := h
  simp only at e2 e4 h
  split at h
  · rename_i hr
    simp only [Option.some.injEq, Prod.mk.injEq] at h
    obtain ⟨rfl, rfl, rfl⟩ := h
    have d1 := digitRun_some _ _ _ e1
    have d3 := digitRun_some _ _ _ e3
    have d5 := digitRun_some _ _ _ e5
    refine ⟨?_, ⟨d1.2.1, d1.2.2⟩, ⟨d3.2.1, d3.2.2⟩, ⟨d5.2.1, d5.2.2⟩⟩
    rw [expectChar_some _ _ _ e0, d1.1, expectChar_some _ _ _ e2, d3.1,
      expectChar_some _ _ _ e4, d5.1, hr]
  · exact absurd h (by simp)

/-! ## Lemmas: the scanner decides the regular expression -/

theorem isDigit_cases (c : Char) (h : c.isDigit = true) :
    c = '0' ∨ c = '1' ∨ c = '2' ∨ c = '3' ∨ c = '4' ∨ c = '5' ∨ c = '6' ∨ c = '7' ∨
      c = '8' ∨ c = '9' := by
  have h2 : 48 ≤ c.toNat ∧ c.toNat ≤ 57 := by
    simp only [Char.isDigit, Bool.and_eq_true, decide_eq_true_eq, ge_iff_le] at h
    exact ⟨h.1, h.2⟩
  have hc : c = Char.ofNat c.toNat := (Char.ofNat_toNat c).symm
  obtain ⟨h48, h57⟩ := h2
  generalize c.toNat = n at hc h48 h57
  subst hc
  interval_cases n <;> decide

theorem mem_digitClass (s : List Char) :
    s ∈ digitClass.matches' ↔ ∃ c, c.isDigit = true ∧ s = [c] := by
  simp only [digitClass, RegularExpression.matches'_add, RegularExpression.matches'_char,
    Language.mem_add]
  constructor
  · intro h
    rcases h with ((((((((h | h) | h) | h) | h) | h) | h) | h) | h) | h <;>
      exact ⟨_, by decide, h⟩
  · rintro ⟨c, hc, rfl⟩
    rcases isDigit_cases c hc with
      rfl | rfl | rfl | rfl | rfl | rfl | rfl | rfl | rfl | rfl <;>
      repeat (first | exact rfl | exact Or.inr rfl | apply Or.inl)

theorem mem_digitStar (s : List Char) :
    s ∈ (RegularExpression.star digitClass).matches' ↔ ∀ c ∈ s, c.isDigit = true := by
  rw [RegularExpression.matches'_star, Language.mem_kstar]
  constructor
  · rintro ⟨L, rfl, hL⟩ c hc
    obtain ⟨l, hl, hcl⟩ := List.mem_flatten.mp hc
    obtain ⟨d, hd, rfl⟩ := (mem_digitClass l).mp (hL l hl)
    rw [List.mem_singleton.mp hcl]
    exact hd
  · intro h
    refine ⟨s.map (fun c => [c]), ?_, ?_⟩
    · induction s with
      | nil => rfl
      | cons c cs ih =>
        simp only [List.map_cons, List.flatten_cons, List.singleton_append, List.cons.injEq,
          true_and]
        exact ih (fun d hd => h d (List.mem_cons_of_mem _ hd))
    · intro y hy
      obtain ⟨c, hc, rfl⟩ := List.mem_map.mp hy
      exact (mem_digitClass _).mpr ⟨c, h c hc, rfl⟩

theorem mem_digitPlus (s : List Char) :
    s ∈ (digitClass * RegularExpression.star digitClass).matches' ↔
      s ≠ [] ∧ ∀ c ∈ s, c.isDigit = true := by
  rw [RegularExpression.matches'_mul, Language.mem_mul]
  constructor
  · rintro ⟨a, ha, b, hb, rfl⟩
    obtain ⟨d, hd, rfl⟩ := (mem_digitClass a).mp ha
    refine ⟨by simp, ?_⟩
    intro c hc
    rcases List.mem_append.mp hc with h | h
    · rw [List.mem_singleton.mp h]; exact hd
    · exact (mem_digitStar b).mp hb c h
  · rintro ⟨hne, h⟩
    obtain ⟨c, cs, rfl⟩ := List.exists_cons_of_ne_nil hne
    exact ⟨[c], (mem_digitClass _).mpr ⟨c, h c (List.mem_cons_self _ _), rfl⟩, cs,
      (mem_digitStar cs).mpr (fun d hd => h d (List.mem_cons_of_mem _ hd)), rfl⟩

/-- The scanner `pathRegexCaptures` succeeds exactly on the language of the
regular expression `pathRegex`. -/
theorem pathRegexCaptures_isSome_iff (s : List Char) :
    (pathRegexCaptures s).isSome = true ↔ s ∈ pathRegex.matches' := by
  have hP : ∀ t : List Char,
      (∃ a ∈ digitClass.matches', ∃ b ∈ (RegularExpression.star digitClass).matches',
        a ++ b = t) ↔ (t ≠ [] ∧ ∀ c ∈ t, c.isDigit = true) := by
    intro t
    rw [← Language.mem_mul, ← RegularExpression.matches'_mul]
    exact mem_digitPlus t
  simp only [pathRegex, RegularExpression.matches'_mul, Language.mem_mul, hP,
    RegularExpression.matches'_char]
  constructor
  · intro h
    obtain ⟨⟨a, b, c⟩, hs⟩ := Option.isSome_iff_exists.mp h
    obtain ⟨rfl, ha, hb, hc⟩ := pathRegexCaptures_some _ _ _ _ hs
    exact ⟨_, ⟨_, ⟨_, ⟨_, ⟨_, ⟨_, ⟨_, ⟨_, ⟨['/'], rfl, a, ha, rfl⟩, ['/'], rfl, rfl⟩, b, hb, rfl⟩,
      ['/'], rfl, rfl⟩, c, hc, rfl⟩, ['.'], rfl, rfl⟩, ['p'], rfl, rfl⟩, ['n'], rfl, rfl⟩,
      ['g'], rfl, by simp⟩
  · rintro ⟨_, ⟨_, ⟨_, ⟨_, ⟨_, ⟨_, ⟨_, ⟨_, ⟨_, rfl, a, ha, rfl⟩, _, rfl, rfl⟩, b, hb, rfl⟩,
      _, rfl, rfl⟩, c, hc, rfl⟩, _, rfl, rfl⟩, _, rfl, rfl⟩, _, rfl, rfl⟩, _, rfl, rfl⟩
    have := pathRegexCaptures_shape a b c ha hb hc
    simp only [List.singleton_append, List.append_assoc, List.cons_append, List.nil_append]
    rw [this]
    rfl

/-! ## Lemmas: extractTileCoords on the shape -/

theorem shapePath_data (a b c : String) :
    (shapePath a b c).data =
      '/' :: (a.data ++ '/' :: (b.data ++ '/' :: (c.data ++ ['.', 'p', 'n', 'g']))) := by
  simp [shapePath, String.data_append]

theorem FindStringSubmatch_shape (a b c : String) (ha : IsDigits a) (hb : IsDigits b)
    (hc : IsDigits c) :
    FindStringSubmatch (shapePath a b c) = [shapePath a b c, a, b, c] := by
  unfold FindStringSubmatch
  rw [shapePath_data, pathRegexCaptures_shape _ _ _ ha hb hc]

theorem FindStringSubmatch_cases (path : String) :
    FindStringSubmatch path = [] ∨
      ∃ a b c, IsDigits a ∧ IsDigits b ∧ IsDigits c ∧ path = shapePath a b c := by
  unfold FindStringSubmatch
  cases h : pathRegexCaptures path.data with
  | none => exact Or.inl rfl
  | some t =>
    obtain ⟨a, b, c⟩ := t
    obtain ⟨hs, ha, hb, hc⟩ := pathRegexCaptures_some _ _ _ _ h
    refine Or.inr ⟨String.mk a, String.mk b, String.mk c, ha, hb, hc, ?_⟩
    apply String.ext
    rw [shapePath_data]
    exact hs

/-- The value of `extractTileCoords` on every path of the fixed shape. -/
theorem extractTileCoords_shape (intSize : Nat) (h1 : 1 ≤ intSize) (h64 : intSize ≤ 64)
    (a b c : String) (ha : IsDigits a) (hb : IsDigits b) (hc : IsDigits c) :
    extractTileCoords intSize (shapePath a b c) =
      if ¬ decimalValue a < 2 ^ (intSize - 1) then .error (.extractingZ .ErrRange)
      else if ¬ decimalValue b < 2 ^ (intSize - 1) then .error (.extractingX .ErrRange)
      else if ¬ decimalValue c < 2 ^ (intSize - 1) then .error (.extractingY .ErrRange)
      else if (decimalValue b : Int) ≥ shiftLeft intSize 1 (decimalValue a) ∨
          (decimalValue c : Int) ≥ shiftLeft intSize 1 (decimalValue a) then
        .error (.invalidTileCoordinates ⟨decimalValue a, decimalValue b, decimalValue c⟩)
      else .ok ⟨decimalValue a, decimalValue b, decimalValue c⟩ := by
  unfold extractTileCoords
  rw [FindStringSubmatch_shape a b c ha hb hc]
  simp only [Atoi_digits intSize h1 h64 _ ha, Atoi_digits intSize h1 h64 _ hb,
    Atoi_digits intSize h1 h64 _ hc]
  by_cases hz : decimalValue a < 2 ^ (intSize - 1)
  · by_cases hx : decimalValue b < 2 ^ (intSize - 1)
    · by_cases hy : decimalValue c < 2 ^ (intSize - 1)
      · have hbn : ¬ ((decimalValue b : Int) < 0) := by omega
        have hcn : ¬ ((decimalValue c : Int) < 0) := by omega
        simp only [hz, hx, hy, if_true, not_true_eq_false, if_false,
          toUint_natCast intSize _ hz, hbn, hcn, false_or]
      · simp [hz, hx, hy]
    · simp [hz, hx]
  · simp [hz]

theorem intSize_bounds (intSize : Nat) (hw : intSize = 32 ∨ intSize = 64) :
    1 ≤ intSize ∧ intSize ≤ 64 := by
  rcases hw with rfl | rfl <;> decide

theorem extractTileCoords_nil (intSize : Nat) (path : String)
    (h : FindStringSubmatch path = []) :
    extractTileCoords intSize path = .error (.notEnoughMatches 0) := by
  unfold extractTileCoords
  rw [h]
  rfl

theorem shape_no_minus (a b c : String) (ha : IsDigits a) (hb : IsDigits b) (hc : IsDigits c) :
    '-' ∉ (shapePath a b c).data := by
  have hd : ∀ s : String, IsDigits s → '-' ∉ s.data := by
    intro s hs hmem
    exact absurd (hs.2 _ hmem) (by decide)
  rw [shapePath_data]
  have h1 := hd a ha
  have h2 := hd b hb
  have h3 := hd c hc
  simp only [List.mem_cons, List.mem_append, not_or, List.mem_nil_iff, or_false]
  refine ⟨by decide, h1, by decide, h2, by decide, h3, by decide, by decide, by decide, by decide⟩

theorem extractTileCoords_minus (intSize : Nat) (path : String) (h : '-' ∈ path.data) :
    extractTileCoords intSize path = .error (.notEnoughMatches 0) := by
  rcases FindStringSubmatch_cases path with h0 | ⟨a, b, c, ha, hb, hc, rfl⟩
  · exact extractTileCoords_nil intSize path h0
  · exact absurd h (shape_no_minus a b c ha hb hc)

theorem formatInt_neg_data (v : Int) (h : v < 0) : '-' ∈ (formatInt v).data := by
  simp [formatInt, h]

/-! ## The claims on extractTileCoords -/

/-- C1, as stated, fails: zoom 63 with x = 0 and y = 0 is in range
(0 < 2^63), yet on a 64-bit `int` the path "/63/0/0.png" is rejected, because
`1 << 63` wraps to a negative bound. -/
theorem extractTileCoords_zoom63_rejected :
    (0 : Int) < 2 ^ 63 ∧ tilePath 63 0 0 = "/63/0/0.png" ∧
    extractTileCoords 64 (tilePath 63 0 0) =
      .error (.invalidTileCoordinates ⟨63, 0, 0⟩) := by
  decide

/-- C1, amended: for every zoom `z` with `z ≤ intSize - 2` (62 for a 64-bit
`int`, 30 for a 32-bit one) and every `x`, `y` with `0 ≤ x, y < 2^z`,
`extractTileCoords` applied to the path "/z/x/y.png" in decimal succeeds and
returns `TileCoords{Z: z, X: x, Y: y}`. -/
theorem extractTileCoords_accepts_in_range (intSize : Nat)
    (hw : intSize = 32 ∨ intSize = 64) (z x y : Nat) (hz : z + 2 ≤ intSize)
    (hx : x < 2 ^ z) (hy : y < 2 ^ z) :
    extractTileCoords intSize (tilePath z x y) = .ok ⟨z, x, y⟩ := by
  obtain ⟨h1, h64⟩ := intSize_bounds intSize hw
  have hpow : 2 ^ z < 2 ^ (intSize - 1) := Nat.pow_lt_pow_right (by decide) (by omega)
  have hzlt : z < 2 ^ (intSize - 1) := Nat.lt_trans (Nat.lt_two_pow z) hpow
  have hxi : ¬ ((x : Int) ≥ (2 : Int) ^ z) := by
    have : (x : Int) < (2 : Int) ^ z := by exact_mod_cast hx
    omega
  have hyi : ¬ ((y : Int) ≥ (2 : Int) ^ z) := by
    have : (y : Int) < (2 : Int) ^ z := by exact_mod_cast hy
    omega
  unfold tilePath
  rw [extractTileCoords_shape intSize h1 h64 _ _ _ (isDigits_formatInt z)
    (isDigits_formatInt x) (isDigits_formatInt y)]
  simp only [decimalValue_formatInt, shiftLeft_one_eq intSize z hz]
  rw [if_neg (by omega), if_neg (by omega), if_neg (by omega), if_neg (by tauto)]

/-- C1, amended, at a concrete input: zoom 62 on a 64-bit `int`, with the
largest x of that zoom. -/
theorem extractTileCoords_accepts_in_range_witness :
    (62 + 2 ≤ 64 ∧ 4611686018427387903 < 2 ^ 62 ∧ 0 < 2 ^ 62) ∧
    extractTileCoords 64 (tilePath (62 : Nat) (4611686018427387903 : Nat) (0 : Nat)) =
      .ok ⟨(62 : Nat), (4611686018427387903 : Nat), (0 : Nat)⟩ :=
  ⟨by decide, extractTileCoords_accepts_in_range 64 (Or.inr rfl) 62 4611686018427387903 0
    (by decide) (by decide) (by decide)⟩

/-- C2: a path of the fixed shape whose x or y is at least 2^z is rejected
with an error (and so are the paths "/z/x/y.png" in which x or y is negative);
in particular "/3/8/0.png" is rejected, with the error that carries the
coordinates. -/
theorem extractTileCoords_rejects_out_of_range (intSize : Nat)
    (hw : intSize = 32 ∨ intSize = 64) :
    (∀ a b c : String, IsDigits a → IsDigits b → IsDigits c →
      (2 ^ decimalValue a ≤ decimalValue b ∨ 2 ^ decimalValue a ≤ decimalValue c) →
      ∃ e, extractTileCoords intSize (shapePath a b c) = .error e) ∧
    (∀ z x y : Int, (x < 0 ∨ y < 0) →
      ∃ e, extractTileCoords intSize (tilePath z x y) = .error e) ∧
    extractTileCoords intSize "/3/8/0.png" = .error (.invalidTileCoordinates ⟨3, 8, 0⟩) := by
  obtain ⟨h1, h64⟩ := intSize_bounds intSize hw
  refine ⟨?_, ?_, ?_⟩
  · intro a b c ha hb hc hbad
    rw [extractTileCoords_shape intSize h1 h64 a b c ha hb hc]
    have hle := shiftLeft_one_le intSize (decimalValue a)
    have hbad2 : (decimalValue b : Int) ≥ shiftLeft intSize 1 (decimalValue a) ∨
        (decimalValue c : Int) ≥ shiftLeft intSize 1 (decimalValue a) := by
      rcases hbad with h | h
      · left
        have : ((2 : Int) ^ decimalValue a) ≤ (decimalValue b : Int) := by exact_mod_cast h
        omega
      · right
        have : ((2 : Int) ^ decimalValue a) ≤ (decimalValue c : Int) := by exact_mod_cast h
        omega
    rw [if_pos hbad2]
    split
    · exact ⟨_, rfl⟩
    · split
      · exact ⟨_, rfl⟩
      · split
        · exact ⟨_, rfl⟩
        · exact ⟨_, rfl⟩
  · intro z x y hneg
    refine ⟨_, extractTileCoords_minus intSize _ ?_⟩
    unfold tilePath
    rw [shapePath_data]
    rcases hneg with h | h
    · have := formatInt_neg_data x h
      simp [this]
    · have := formatInt_neg_data y h
      simp [this]
  · rcases hw with rfl | rfl <;> decide

/-- C2 at the concrete path of the claim, "/3/8/0.png", on a 64-bit `int`. -/
theorem extractTileCoords_rejects_out_of_range_witness :
    (IsDigits "3" ∧ IsDigits "8" ∧ IsDigits "0" ∧ 2 ^ decimalValue "3" ≤ decimalValue "8") ∧
    shapePath "3" "8" "0" = "/3/8/0.png" ∧
    ∃ e, extractTileCoords 64 (shapePath "3" "8" "0") = .error e :=
  ⟨by decide, by decide,
    (extractTileCoords_rejects_out_of_range 64 (Or.inr rfl)).1 "3" "8" "0"
      (by decide) (by decide) (by decide) (Or.inl (by decide))⟩

/-- C3, as stated, fails: "/3/5/9.png" does not yield coordinates (on either
width of `int`), since at zoom 3 the bound is 2^3 = 8 and y = 9. -/
theorem extractTileCoords_3_5_9_not_accepted :
    extractTileCoords 64 "/3/5/9.png" ≠ .ok ⟨3, 5, 9⟩ ∧
    extractTileCoords 32 "/3/5/9.png" ≠ .ok ⟨3, 5, 9⟩ := by
  decide

/-- C3, amended: `extractTileCoords("/3/5/9.png")` returns the error "invalid
tile coordinates" carrying {3 5 9}, because 9 ≥ 2^3; a path at zoom 3 with
y below 8, such as "/3/5/7.png", is accepted and returns zoom 3, x 5, y 7. -/
theorem extractTileCoords_3_5_9_rejected :
    (extractTileCoords 64 "/3/5/9.png" = .error (.invalidTileCoordinates ⟨3, 5, 9⟩) ∧
      extractTileCoords 32 "/3/5/9.png" = .error (.invalidTileCoordinates ⟨3, 5, 9⟩)) ∧
    (extractTileCoords 64 "/3/5/7.png" = .ok ⟨3, 5, 7⟩ ∧
      extractTileCoords 32 "/3/5/7.png" = .ok ⟨3, 5, 7⟩) := by
  decide

/-- C4: every path that is not "/" digits "/" digits "/" digits ".png" (three
non-empty runs of ASCII decimal digits, nothing before or after) makes
`extractTileCoords` return the error "not enough matches, got 0". -/
theorem extractTileCoords_rejects_malformed (intSize : Nat) (path : String)
    (h : ¬ ∃ a b c : String, IsDigits a ∧ IsDigits b ∧ IsDigits c ∧ path = shapePath a b c) :
    extractTileCoords intSize path = .error (.notEnoughMatches 0) := by
  rcases FindStringSubmatch_cases path with h0 | hs
  · exact extractTileCoords_nil intSize path h0
  · exact absurd hs h

theorem not_shape_of_nil (path : String) (h : FindStringSubmatch path = []) :
    ¬ ∃ a b c : String, IsDigits a ∧ IsDigits b ∧ IsDigits c ∧ path = shapePath a b c := by
  rintro ⟨a, b, c, ha, hb, hc, rfl⟩
  rw [FindStringSubmatch_shape a b c ha hb hc] at h
  exact absurd h (by simp)

/-- C4 at the two paths of the claim: "/abc/1/1.png" and "/1/1/1" are not of
the shape and are rejected. -/
theorem extractTileCoords_rejects_malformed_witness :
    ((¬ ∃ a b c : String, IsDigits a ∧ IsDigits b ∧ IsDigits c ∧
        "/abc/1/1.png" = shapePath a b c) ∧
      extractTileCoords 64 "/abc/1/1.png" = .error (.notEnoughMatches 0)) ∧
    ((¬ ∃ a b c : String, IsDigits a ∧ IsDigits b ∧ IsDigits c ∧
        "/1/1/1" = shapePath a b c) ∧
      extractTileCoords 64 "/1/1/1" = .error (.notEnoughMatches 0)) :=
  ⟨⟨not_shape_of_nil _ (by decide),
      extractTileCoords_rejects_malformed 64 "/abc/1/1.png" (not_shape_of_nil _ (by decide))⟩,
    ⟨not_shape_of_nil _ (by decide),
      extractTileCoords_rejects_malformed 64 "/1/1/1" (not_shape_of_nil _ (by decide))⟩⟩

/-- C5: whenever `extractTileCoords` returns coordinates, they satisfy
`Z ≥ 0`, `0 ≤ X < 2^Z` and `0 ≤ Y < 2^Z`, with `2^Z` the mathematical power. -/
theorem extractTileCoords_invariant (intSize : Nat) (hw : intSize = 32 ∨ intSize = 64)
    (path : String) (coords : TileCoords)
    (h : extractTileCoords intSize path = .ok coords) :
    0 ≤ coords.Z ∧ (0 ≤ coords.X ∧ coords.X < 2 ^ coords.Z.toNat) ∧
      (0 ≤ coords.Y ∧ coords.Y < 2 ^ coords.Z.toNat) := by
  obtain ⟨h1, h64⟩ := intSize_bounds intSize hw
  rcases FindStringSubmatch_cases path with h0 | ⟨a, b, c, ha, hb, hc, rfl⟩
  · rw [extractTileCoords_nil intSize path h0] at h
    exact absurd h (by simp)
  · rw [extractTileCoords_shape intSize h1 h64 a b c ha hb hc] at h
    have hle := shiftLeft_one_le intSize (decimalValue a)
    split at h
    · exact absurd h (by simp)
    · split at h
      · exact absurd h (by simp)
      · split at h
        · exact absurd h (by simp)
        · split at h
          · exact absurd h (by simp)
          · rename_i hok
            simp only [Except.ok.injEq] at h
            subst h
            simp only [Int.toNat_ofNat]
            refine ⟨by omega, ⟨by omega, ?_⟩, ⟨by omega, ?_⟩⟩ <;> omega

/-- C5 at a concrete accepted path, "/4/5/9.png". -/
theorem extractTileCoords_invariant_witness :
    extractTileCoords 64 "/4/5/9.png" = .ok ⟨4, 5, 9⟩ ∧
    ((0 : Int) ≤ 4 ∧ ((0 : Int) ≤ 5 ∧ (5 : Int) < 2 ^ (4 : Int).toNat) ∧
      ((0 : Int) ≤ 9 ∧ (9 : Int) < 2 ^ (4 : Int).toNat)) :=
  ⟨by decide, extractTileCoords_invariant 64 (Or.inr rfl) "/4/5/9.png" ⟨4, 5, 9⟩ (by decide)⟩

/-! ## Lemmas: URLs and the compositor -/

theorem OpenStreetMapURL_ne_primaryURL (x y z : Int) (tilestype apikey : String) (year : Int) :
    OpenStreetMapURL x y z ≠ primaryURL x y z tilestype apikey year := by
  intro h
  have h8 : ∀ s t : String, s = t → s.data.get? 8 = t.data.get? 8 := by
    intro s t e; rw [e]
  have := h8 _ _ h
  unfold primaryURL OpenStreetMapURL NearmapTilesV3DateIMGURL NearmapTilesV3IMGURL at this
  split at this <;> simp [String.data_append] at this

/-! ## The claims on the compositor -/

/-- C6: if the primary fetch succeeds with an image whose colour model is
opaque, the compositor returns exactly that image and makes exactly one
fetch, of the primary URL; the fallback URL is not fetched. -/
theorem compositor_opaque_primary (net : Net) (x y z : Int) (tilestype apikey : String)
    (year : Int) (nm : Image)
    (hNM : GetImage net (primaryURL x y z tilestype apikey year) = .ok nm)
    (hmodel : imageIsOpaque nm = true) :
    NearmapTilesV3OverOpenStreetMap net x y z tilestype apikey year =
        (nm, [primaryURL x y z tilestype apikey year]) ∧
      (NearmapTilesV3OverOpenStreetMap net x y z tilestype apikey year).2.length = 1 ∧
      OpenStreetMapURL x y z ∉
        (NearmapTilesV3OverOpenStreetMap net x y z tilestype apikey year).2 := by
  have hne := OpenStreetMapURL_ne_primaryURL x y z tilestype apikey year
  have hrun : NearmapTilesV3OverOpenStreetMap net x y z tilestype apikey year =
      (nm, [primaryURL x y z tilestype apikey year]) := by
    unfold primaryURL at hNM ⊢
    simp only [NearmapTilesV3OverOpenStreetMap, hNM, hmodel, if_true]
  rw [hrun]
  exact ⟨rfl, rfl, by simpa using hne⟩

/-- C6 with a test double: the primary provider answers an opaque (Y'CbCr)
grey tile. -/
theorem compositor_opaque_primary_witness :
    (GetImage (stubNet (.ok greyTile) (.error "unused"))
        (primaryURL 1 2 3 TilesTypeVert "key" 0) = .ok greyTile ∧
      imageIsOpaque greyTile = true) ∧
    (NearmapTilesV3OverOpenStreetMap (stubNet (.ok greyTile) (.error "unused"))
        1 2 3 TilesTypeVert "key" 0).2.length = 1 :=
  ⟨⟨rfl, rfl⟩,
    (compositor_opaque_primary (stubNet (.ok greyTile) (.error "unused"))
      1 2 3 TilesTypeVert "key" 0 greyTile rfl rfl).2.1⟩

/-- C7: if both the primary and the fallback fetch fail, the compositor
returns a new RGBA image with bounds (0,0)-(256,256) in which every pixel has
all four channels zero. -/
theorem compositor_both_fail (net : Net) (x y z : Int) (tilestype apikey : String)
    (year : Int) (errNM errOSM : GetImageError)
    (hNM : GetImage net (primaryURL x y z tilestype apikey year) = .error errNM)
    (hOSM : GetImage net (OpenStreetMapURL x y z) = .error errOSM) :
    (NearmapTilesV3OverOpenStreetMap net x y z tilestype apikey year).1 =
        (NewRGBA (Rect 0 0 tileSize tileSize)).toImage ∧
      (NearmapTilesV3OverOpenStreetMap net x y z tilestype apikey year).1.Bounds = tileRect ∧
      ∀ px py : Int,
        (NearmapTilesV3OverOpenStreetMap net x y z tilestype apikey year).1.At px py =
          ⟨0, 0, 0, 0⟩ := by
  have hrun : (NearmapTilesV3OverOpenStreetMap net x y z tilestype apikey year).1 =
      (NewRGBA (Rect 0 0 tileSize tileSize)).toImage := by
    unfold primaryURL at hNM
    simp only [NearmapTilesV3OverOpenStreetMap, hNM, hOSM]
  rw [hrun]
  refine ⟨rfl, rfl, ?_⟩
  intro px py
  simp only [RGBAImage.toImage, RGBAImage.At, NewRGBA, RGBA.rgba]
  split <;> rfl

/-- C7 with a test double in which both providers fail to decode. -/
theorem compositor_both_fail_witness :
    (GetImage (stubNet (.error "primary") (.error "fallback"))
        (primaryURL 1 2 3 TilesTypeVert "key" 0) = .error (.decode "primary") ∧
      GetImage (stubNet (.error "primary") (.error "fallback"))
        (OpenStreetMapURL 1 2 3) = .error (.decode "fallback")) ∧
    (NearmapTilesV3OverOpenStreetMap (stubNet (.error "primary") (.error "fallback"))
        1 2 3 TilesTypeVert "key" 0).1.Bounds = tileRect :=
  ⟨⟨rfl, rfl⟩,
    (compositor_both_fail (stubNet (.error "primary") (.error "fallback"))
      1 2 3 TilesTypeVert "key" 0 (.decode "primary") (.decode "fallback") rfl rfl).2.1⟩

/-- C8: if the primary fetch fails and the fallback fetch succeeds, the
compositor returns the fallback image itself; nothing is drawn. -/
theorem compositor_fallback_only (net : Net) (x y z : Int) (tilestype apikey : String)
    (year : Int) (errNM : GetImageError) (osm : Image)
    (hNM : GetImage net (primaryURL x y z tilestype apikey year) = .error errNM)
    (hOSM : GetImage net (OpenStreetMapURL x y z) = .ok osm) :
    (NearmapTilesV3OverOpenStreetMap net x y z tilestype apikey year).1 = osm := by
  unfold primaryURL at hNM
  simp only [NearmapTilesV3OverOpenStreetMap, hNM, hOSM]

/-- C8 with a test double: the primary fails, the fallback is an opaque
256x256 white tile. -/
theorem compositor_fallback_only_witness :
    (GetImage (stubNet (.error "primary") (.ok whiteTile))
        (primaryURL 1 2 3 TilesTypeVert "key" 0) = .error (.decode "primary") ∧
      GetImage (stubNet (.error "primary") (.ok whiteTile))
        (OpenStreetMapURL 1 2 3) = .ok whiteTile) ∧
    (NearmapTilesV3OverOpenStreetMap (stubNet (.error "primary") (.ok whiteTile))
        1 2 3 TilesTypeVert "key" 0).1 = whiteTile :=
  ⟨⟨rfl, rfl⟩,
    compositor_fallback_only (stubNet (.error "primary") (.ok whiteTile))
      1 2 3 TilesTypeVert "key" 0 (.decode "primary") whiteTile rfl rfl⟩

/-- C9: if the primary fetch succeeds with an image of an alpha-bearing
(non-opaque) colour model and the fallback fetch fails, the compositor returns
the primary image itself, alpha included. -/
theorem compositor_primary_only (net : Net) (x y z : Int) (tilestype apikey : String)
    (year : Int) (nm : Image) (errOSM : GetImageError)
    (hNM : GetImage net (primaryURL x y z tilestype apikey year) = .ok nm)
    (halpha : imageIsOpaque nm = false)
    (hOSM : GetImage net (OpenStreetMapURL x y z) = .error errOSM) :
    (NearmapTilesV3OverOpenStreetMap net x y z tilestype apikey year).1 = nm := by
  unfold primaryURL at hNM
  simp only [NearmapTilesV3OverOpenStreetMap, hNM, hOSM, halpha, Bool.false_eq_true, if_false]

/-- C9 with a test double: the primary is a half-transparent tile, the
fallback fails. -/
theorem compositor_primary_only_witness :
    (GetImage (stubNet (.ok halfRedTile) (.error "fallback"))
        (primaryURL 1 2 3 TilesTypeVert "key" 0) = .ok halfRedTile ∧
      imageIsOpaque halfRedTile = false ∧
      GetImage (stubNet (.ok halfRedTile) (.error "fallback"))
        (OpenStreetMapURL 1 2 3) = .error (.decode "fallback")) ∧
    (NearmapTilesV3OverOpenStreetMap (stubNet (.ok halfRedTile) (.error "fallback"))
        1 2 3 TilesTypeVert "key" 0).1 = halfRedTile :=
  ⟨⟨rfl, rfl, rfl⟩,
    compositor_primary_only (stubNet (.ok halfRedTile) (.error "fallback"))
      1 2 3 TilesTypeVert "key" 0 halfRedTile (.decode "fallback") rfl rfl rfl⟩

/-! ## Lemmas: drawing -/

theorem over_alpha_weight (sa : Nat) (h : sa ≤ 65535) :
    u32 (u32sub 65535 (u32 (sa * 65535) / 65535) * 257) = 257 * (65535 - sa) := by
  have e1 : u32 (sa * 65535) / 65535 = sa := by
    unfold u32
    rw [Nat.mod_eq_of_lt (by omega)]
    exact Nat.mul_div_cancel sa (by decide)
  have e2 : u32sub 65535 sa = 65535 - sa := by
    unfold u32sub
    omega
  rw [e1, e2]
  unfold u32
  omega

theorem overChannel_exact (d t s : Nat) (hd : d ≤ 255) (hst : s + t ≤ 65535) :
    overChannel d (257 * t) s = (d * (257 * t) + s * 65535) / 65535 / 256 := by
  have h : d * (257 * t) ≤ 255 * (257 * t) := Nat.mul_le_mul_right _ hd
  have h1 : d * (257 * t) < 4294967296 := by omega
  have h2 : s * 65535 < 4294967296 := by omega
  have h3 : d * (257 * t) + s * 65535 < 4294967296 := by omega
  have h4 : (d * (257 * t) + s * 65535) / 65535 / 256 < 256 := by omega
  unfold overChannel u32 u8
  rw [Nat.mod_eq_of_lt h1, Nat.mod_eq_of_lt h2, Nat.mod_eq_of_lt h3, Nat.mod_eq_of_lt h4]

theorem overPixel_blank (s : Color) (hv : s.Valid) (ha : s.A = 65535) :
    overPixel ⟨0, 0, 0, 0⟩ s = ⟨s.R / 256, s.G / 256, s.B / 256, 255⟩ := by
  obtain ⟨h1, h2, h3, h4⟩ := hv
  unfold overPixel
  simp only [over_alpha_weight s.A h1]
  rw [overChannel_exact 0 _ s.R (by omega) (by omega),
    overChannel_exact 0 _ s.G (by omega) (by omega),
    overChannel_exact 0 _ s.B (by omega) (by omega),
    overChannel_exact 0 _ s.A (by omega) (by omega)]
  simp only [RGBA.mk.injEq]
  refine ⟨?_, ?_, ?_, ?_⟩ <;> omega

theorem overPixel_opaque_dst (fr fg fb : Nat) (hr : fr ≤ 255) (hg : fg ≤ 255) (hb : fb ≤ 255)
    (s : Color) (hv : s.Valid) :
    overPixel ⟨fr, fg, fb, 255⟩ s =
      ⟨(fr * (257 * (65535 - s.A)) + s.R * 65535) / 65535 / 256,
       (fg * (257 * (65535 - s.A)) + s.G * 65535) / 65535 / 256,
       (fb * (257 * (65535 - s.A)) + s.B * 65535) / 65535 / 256, 255⟩ := by
  obtain ⟨h1, h2, h3, h4⟩ := hv
  unfold overPixel
  simp only [over_alpha_weight s.A h1]
  rw [overChannel_exact fr _ s.R hr (by omega),
    overChannel_exact fg _ s.G hg (by omega),
    overChannel_exact fb _ s.B hb (by omega),
    overChannel_exact 255 _ s.A (by omega) (by omega)]
  simp only [RGBA.mk.injEq, true_and]
  omega

theorem overBlend8_close (p pa f : Nat) (hp : p ≤ pa) (hpa : pa ≤ 65535) (hf : f ≤ 65535) :
    65535 * (257 * overBlend8 p pa f) < 65535 * p + f * (65535 - pa) + 511 * 65535 ∧
      65535 * p + f * (65535 - pa) < 65535 * (257 * overBlend8 p pa f) + 511 * 65535 := by
  have hA : (f / 256) * (65535 - pa) ≤ 255 * (65535 - pa) := Nat.mul_le_mul_right _ (by omega)
  have hB : (f % 256) * (65535 - pa) ≤ 255 * (65535 - pa) := Nat.mul_le_mul_right _ (by omega)
  have hsplit : f * (65535 - pa) =
      256 * ((f / 256) * (65535 - pa)) + (f % 256) * (65535 - pa) := by
    conv_lhs => rw [← Nat.div_add_mod f 256]
    ring
  have hX : (f / 256) * (257 * (65535 - pa)) = 257 * ((f / 256) * (65535 - pa)) := by ring
  unfold overBlend8
  rw [hX, hsplit]
  omega

theorem Draw_tile (dst : RGBAImage) (src : Image) (hdst : dst.Rect = tileRect)
    (hsrc : src.Bounds = tileRect) :
    (Draw dst (Rect 0 0 tileSize tileSize) src (Pt 0 0)).Rect = tileRect ∧
      ∀ px py : Int, (Point.mk px py).In tileRect = true →
        (Draw dst (Rect 0 0 tileSize tileSize) src (Pt 0 0)).Pix px py =
          overPixel (dst.Pix px py) (src.At px py) := by
  have e1 : (Rect 0 0 tileSize tileSize).Intersect tileRect = tileRect := by decide
  have e2 : tileRect.Intersect (tileRect.Add ((Rect 0 0 tileSize tileSize).Min.Sub (Pt 0 0))) =
      tileRect := by decide
  have e3 : tileRect.Empty = false := by decide
  have e4 : (Rect 0 0 tileSize tileSize).Min = ⟨0, 0⟩ := by decide
  have e5 : tileRect.Min = ⟨0, 0⟩ := rfl
  have e6 : Pt 0 0 = ⟨0, 0⟩ := rfl
  have e7 : tileRect.Intersect (tileRect.Add ((Point.mk 0 0).Sub (Point.mk 0 0))) =
      tileRect := by decide
  constructor
  · simp only [Draw, hdst, hsrc, e1, e2, e3, Bool.false_eq_true, if_false]
  · intro px py hin
    simp only [Draw, hdst, hsrc, e1, e4, e6, e7, e3, Bool.false_eq_true, if_false, hin,
      if_true, e5, sub_zero, zero_add]

/-- C10, as stated, fails: a half-transparent black 8-bit NRGBA primary
(alpha 128 of 255) over an opaque grey fallback (100 of 255), both 256x256.
The output at pixel (0,0) is opaque with every colour channel 49 of 255
(12593 of 65535), while `primary_color*primary_alpha +
fallback_color*(1 - primary_alpha)` is 100 * 127 / 255 = 49.8 of 255: the
output is not equal to it, and lies more than half an 8-bit step below it. -/
theorem compositor_blend_not_exact :
    (GetImage (stubNet (.ok halfBlackTile) (.ok grey100Tile))
        (primaryURL 1 2 3 TilesTypeVert "key" 0) = .ok halfBlackTile ∧
      halfBlackTile.ColorModel = .NRGBAModel ∧
      GetImage (stubNet (.ok halfBlackTile) (.ok grey100Tile)) (OpenStreetMapURL 1 2 3) =
        .ok grey100Tile ∧
      halfBlackTile.Bounds = tileRect ∧ grey100Tile.Bounds = tileRect ∧
      halfBlackTile.At 0 0 = ⟨0, 0, 0, 128 * 257⟩ ∧
      grey100Tile.At 0 0 = ⟨100 * 257, 100 * 257, 100 * 257, 65535⟩) ∧
    (NearmapTilesV3OverOpenStreetMap (stubNet (.ok halfBlackTile) (.ok grey100Tile))
        1 2 3 TilesTypeVert "key" 0).1.At 0 0 = ⟨49 * 257, 49 * 257, 49 * 257, 65535⟩ ∧
    65535 * ((NearmapTilesV3OverOpenStreetMap (stubNet (.ok halfBlackTile) (.ok grey100Tile))
        1 2 3 TilesTypeVert "key" 0).1.At 0 0).G ≠
      65535 * (halfBlackTile.At 0 0).G +
        (grey100Tile.At 0 0).G * (65535 - (halfBlackTile.At 0 0).A) ∧
    65535 * ((NearmapTilesV3OverOpenStreetMap (stubNet (.ok halfBlackTile) (.ok grey100Tile))
        1 2 3 TilesTypeVert "key" 0).1.At 0 0).G + 65535 * 128 <
      65535 * (halfBlackTile.At 0 0).G +
        (grey100Tile.At 0 0).G * (65535 - (halfBlackTile.At 0 0).A) :=
  ⟨⟨rfl, rfl, rfl, rfl, rfl, rfl, rfl⟩, by decide, by decide, by decide⟩

/-- C10, amended: if the primary fetch succeeds with an image whose colour
model is one of the six alpha-bearing models that `imageIsOpaque` names
(RGBA, RGBA64, NRGBA, NRGBA64, Alpha, Alpha16) and the fallback fetch succeeds
with an opaque image (full alpha at every pixel), both with bounds
(0,0)-(256,256) and well-formed alpha-premultiplied colours, then the output
is the blank RGBA canvas with the fallback drawn on it first and the primary
drawn over that, both with the `Over` operator; it has bounds
(0,0)-(256,256); at every pixel its alpha is full, and each colour channel is
`overBlend8`, that is `primary_color * primary_alpha +
fallback_color * (1 - primary_alpha)` as package `draw` computes it in fixed
point on the 8-bit canvas, rounded down: a value within 511/65535 of the
exact one, and not in general equal to it. -/
theorem compositor_blend (net : Net) (x y z : Int) (tilestype apikey : String)
    (year : Int) (nm osm : Image)
    (hNM : GetImage net (primaryURL x y z tilestype apikey year) = .ok nm)
    (hnamed : nm.ColorModel = .RGBAModel ∨ nm.ColorModel = .RGBA64Model ∨
      nm.ColorModel = .NRGBAModel ∨ nm.ColorModel = .NRGBA64Model ∨
      nm.ColorModel = .AlphaModel ∨ nm.ColorModel = .Alpha16Model)
    (hOSM : GetImage net (OpenStreetMapURL x y z) = .ok osm)
    (hnmB : nm.Bounds = tileRect) (hosmB : osm.Bounds = tileRect)
    (hnmV : ∀ px py : Int, (Point.mk px py).In tileRect = true → (nm.At px py).Valid)
    (hosmV : ∀ px py : Int, (Point.mk px py).In tileRect = true →
      (osm.At px py).Valid ∧ (osm.At px py).A = 65535) :
    (NearmapTilesV3OverOpenStreetMap net x y z tilestype apikey year).1 =
        (Draw (Draw (NewRGBA tileRect) tileRect osm (Pt 0 0)) tileRect nm (Pt 0 0)).toImage ∧
      (NearmapTilesV3OverOpenStreetMap net x y z tilestype apikey year).1.Bounds = tileRect ∧
      ∀ px py : Int, (Point.mk px py).In tileRect = true →
        (NearmapTilesV3OverOpenStreetMap net x y z tilestype apikey year).1.At px py =
            ⟨257 * overBlend8 (nm.At px py).R (nm.At px py).A (osm.At px py).R,
             257 * overBlend8 (nm.At px py).G (nm.At px py).A (osm.At px py).G,
             257 * overBlend8 (nm.At px py).B (nm.At px py).A (osm.At px py).B,
             65535⟩ ∧
          (65535 * (257 * overBlend8 (nm.At px py).R (nm.At px py).A (osm.At px py).R) <
              65535 * (nm.At px py).R + (osm.At px py).R * (65535 - (nm.At px py).A) +
                511 * 65535 ∧
            65535 * (nm.At px py).R + (osm.At px py).R * (65535 - (nm.At px py).A) <
              65535 * (257 * overBlend8 (nm.At px py).R (nm.At px py).A (osm.At px py).R) +
                511 * 65535) ∧
          (65535 * (257 * overBlend8 (nm.At px py).G (nm.At px py).A (osm.At px py).G) <
              65535 * (nm.At px py).G + (osm.At px py).G * (65535 - (nm.At px py).A) +
                511 * 65535 ∧
            65535 * (nm.At px py).G + (osm.At px py).G * (65535 - (nm.At px py).A) <
              65535 * (257 * overBlend8 (nm.At px py).G (nm.At px py).A (osm.At px py).G) +
                511 * 65535) ∧
          (65535 * (257 * overBlend8 (nm.At px py).B (nm.At px py).A (osm.At px py).B) <
              65535 * (nm.At px py).B + (osm.At px py).B * (65535 - (nm.At px py).A) +
                511 * 65535 ∧
            65535 * (nm.At px py).B + (osm.At px py).B * (65535 - (nm.At px py).A) <
              65535 * (257 * overBlend8 (nm.At px py).B (nm.At px py).A (osm.At px py).B) +
                511 * 65535) := by
  have halpha : imageIsOpaque nm = false := by
    unfold imageIsOpaque
    rcases hnamed with h | h | h | h | h | h <;> rw [h]
  have hrun : (NearmapTilesV3OverOpenStreetMap net x y z tilestype apikey year).1 =
      (Draw (Draw (NewRGBA tileRect) tileRect osm (Pt 0 0)) tileRect nm (Pt 0 0)).toImage := by
    unfold primaryURL at hNM
    simp only [NearmapTilesV3OverOpenStreetMap, hNM, hOSM, halpha, Bool.false_eq_true, if_false]
    rfl
  have hR : Rect 0 0 tileSize tileSize = tileRect := by decide
  obtain ⟨d1R, d1P⟩ := Draw_tile (NewRGBA tileRect) osm rfl hosmB
  rw [hR] at d1R d1P
  obtain ⟨d2R, d2P⟩ := Draw_tile (Draw (NewRGBA tileRect) tileRect osm (Pt 0 0)) nm d1R hnmB
  rw [hR] at d2R d2P
  rw [hrun]
  refine ⟨rfl, d2R, ?_⟩
  intro px py hin
  obtain ⟨hfV, hfA⟩ := hosmV px py hin
  have hpV := hnmV px py hin
  have hf1 : (osm.At px py).R ≤ 65535 ∧ (osm.At px py).G ≤ 65535 ∧ (osm.At px py).B ≤ 65535 := by
    obtain ⟨h1, h2, h3, h4⟩ := hfV
    omega
  have hpix : (Draw (Draw (NewRGBA tileRect) tileRect osm (Pt 0 0)) tileRect nm (Pt 0 0)).Pix
      px py =
      ⟨overBlend8 (nm.At px py).R (nm.At px py).A (osm.At px py).R,
       overBlend8 (nm.At px py).G (nm.At px py).A (osm.At px py).G,
       overBlend8 (nm.At px py).B (nm.At px py).A (osm.At px py).B, 255⟩ := by
    rw [d2P px py hin, d1P px py hin]
    have hblank : (NewRGBA tileRect).Pix px py = ⟨0, 0, 0, 0⟩ := rfl
    rw [hblank, overPixel_blank _ hfV hfA]
    rw [overPixel_opaque_dst _ _ _ (by omega) (by omega) (by omega) _ hpV]
    rfl
  refine ⟨?_, ?_, ?_, ?_⟩
  · simp only [RGBAImage.toImage, RGBAImage.At, d2R, hin, if_true, hpix, RGBA.rgba]
    simp only [Color.mk.injEq, and_true]
    refine ⟨?_, ?_, ?_⟩ <;> exact Nat.mul_comm _ _
  · exact overBlend8_close _ _ _ hpV.2.1 hpV.1 hf1.1
  · exact overBlend8_close _ _ _ hpV.2.2.1 hpV.1 hf1.2.1
  · exact overBlend8_close _ _ _ hpV.2.2.2 hpV.1 hf1.2.2

/-- C10, amended, with a test double: a half-transparent red primary over an
opaque white fallback. At pixel (0,0) the result is opaque; red is full, green
and blue are 127 of 255 (exact value 32767/65535, cut to 8 bits). -/
theorem compositor_blend_witness :
    (GetImage (stubNet (.ok halfRedTile) (.ok whiteTile))
        (primaryURL 1 2 3 TilesTypeVert "key" 0) = .ok halfRedTile ∧
      halfRedTile.ColorModel = .NRGBAModel ∧
      GetImage (stubNet (.ok halfRedTile) (.ok whiteTile)) (OpenStreetMapURL 1 2 3) =
        .ok whiteTile ∧
      halfRedTile.Bounds = tileRect ∧ whiteTile.Bounds = tileRect ∧
      (∀ px py : Int, (Point.mk px py).In tileRect = true → (halfRedTile.At px py).Valid) ∧
      (∀ px py : Int, (Point.mk px py).In tileRect = true →
        (whiteTile.At px py).Valid ∧ (whiteTile.At px py).A = 65535)) ∧
    (NearmapTilesV3OverOpenStreetMap (stubNet (.ok halfRedTile) (.ok whiteTile))
        1 2 3 TilesTypeVert "key" 0).1.At 0 0 = ⟨65535, 32639, 32639, 65535⟩ :=
  ⟨⟨rfl, rfl, rfl, rfl, rfl,
      fun _ _ _ => (by decide : Color.Valid ⟨32768, 0, 0, 32768⟩),
      fun _ _ _ => ⟨(by decide : Color.Valid ⟨65535, 65535, 65535, 65535⟩), rfl⟩⟩,
    ((compositor_blend (stubNet (.ok halfRedTile) (.ok whiteTile))
      1 2 3 TilesTypeVert "key" 0 halfRedTile whiteTile rfl (Or.inr (Or.inr (Or.inl rfl)))
      rfl rfl rfl
      (fun _ _ _ => (by decide : Color.Valid ⟨32768, 0, 0, 32768⟩))
      (fun _ _ _ => ⟨(by decide : Color.Valid ⟨65535, 65535, 65535, 65535⟩), rfl⟩)).2.2
      0 0 (by decide)).1⟩

/-! ## The size of the compositor's result -/

theorem Draw_Rect (dst : RGBAImage) (r : Rectangle) (src : Image) (sp : Point) :
    (Draw dst r src sp).Rect = dst.Rect := by
  unfold Draw
  simp only
  split <;> rfl

/-- C11, as stated, fails: with an opaque primary image of 512x512 pixels the
compositor returns that image, whose bounds are not (0,0)-(256,256). -/
theorem compositor_returns_oversized_primary :
    GetImage (stubNet (.ok bigGreyTile) (.error "unused"))
        (primaryURL 1 2 3 TilesTypeVert "key" 0) = .ok bigGreyTile ∧
    (NearmapTilesV3OverOpenStreetMap (stubNet (.ok bigGreyTile) (.error "unused"))
        1 2 3 TilesTypeVert "key" 0).1.Bounds = ⟨⟨0, 0⟩, ⟨512, 512⟩⟩ ∧
    (NearmapTilesV3OverOpenStreetMap (stubNet (.ok bigGreyTile) (.error "unused"))
        1 2 3 TilesTypeVert "key" 0).1.Bounds ≠ tileRect :=
  ⟨rfl, rfl, by decide⟩

/-- C11, amended: for every input and every combination of fetch outcomes the
compositor returns an image (the function is total). The image has the
standard bounds (0,0)-(256,256) when both fetches fail and when both succeed
with a non-opaque primary, whatever the sizes of the fetched images. When one
fetched image is used alone (an opaque primary; a non-opaque primary with a
failed fallback; a fallback with a failed primary) the result is that image
itself, with its own bounds. -/
theorem compositor_result_size (net : Net) (x y z : Int) (tilestype apikey : String)
    (year : Int) :
    (∀ errNM errOSM, GetImage net (primaryURL x y z tilestype apikey year) = .error errNM →
        GetImage net (OpenStreetMapURL x y z) = .error errOSM →
        (NearmapTilesV3OverOpenStreetMap net x y z tilestype apikey year).1.Bounds =
          tileRect) ∧
    (∀ nm osm, GetImage net (primaryURL x y z tilestype apikey year) = .ok nm →
        imageIsOpaque nm = false → GetImage net (OpenStreetMapURL x y z) = .ok osm →
        (NearmapTilesV3OverOpenStreetMap net x y z tilestype apikey year).1.Bounds =
          tileRect) ∧
    (∀ nm, GetImage net (primaryURL x y z tilestype apikey year) = .ok nm →
        imageIsOpaque nm = true →
        (NearmapTilesV3OverOpenStreetMap net x y z tilestype apikey year).1 = nm) ∧
    (∀ nm errOSM, GetImage net (primaryURL x y z tilestype apikey year) = .ok nm →
        imageIsOpaque nm = false → GetImage net (OpenStreetMapURL x y z) = .error errOSM →
        (NearmapTilesV3OverOpenStreetMap net x y z tilestype apikey year).1 = nm) ∧
    (∀ errNM osm, GetImage net (primaryURL x y z tilestype apikey year) = .error errNM →
        GetImage net (OpenStreetMapURL x y z) = .ok osm →
        (NearmapTilesV3OverOpenStreetMap net x y z tilestype apikey year).1 = osm) := by
  refine ⟨?_, ?_, ?_, ?_, ?_⟩
  · intro errNM errOSM hNM hOSM
    unfold primaryURL at hNM
    simp only [NearmapTilesV3OverOpenStreetMap, hNM, hOSM]
    rfl
  · intro nm osm hNM halpha hOSM
    unfold primaryURL at hNM
    simp only [NearmapTilesV3OverOpenStreetMap, hNM, hOSM, halpha, Bool.false_eq_true,
      if_false]
    show (Draw (Draw (NewRGBA (Rect 0 0 tileSize tileSize)) (Rect 0 0 tileSize tileSize) osm
      (Pt 0 0)) (Rect 0 0 tileSize tileSize) nm (Pt 0 0)).Rect = tileRect
    rw [Draw_Rect, Draw_Rect]
    rfl
  · intro nm hNM hmodel
    unfold primaryURL at hNM
    simp only [NearmapTilesV3OverOpenStreetMap, hNM, hmodel, if_true]
  · intro nm errOSM hNM halpha hOSM
    unfold primaryURL at hNM
    simp only [NearmapTilesV3OverOpenStreetMap, hNM, hOSM, halpha, Bool.false_eq_true,
      if_false]
  · intro errNM osm hNM hOSM
    unfold primaryURL at hNM
    simp only [NearmapTilesV3OverOpenStreetMap, hNM, hOSM]

/-- C11, amended, with a test double: a half-transparent primary of tile
size over an opaque fallback of 512x512 pixels gives a 256x256 result. -/
theorem compositor_result_size_witness :
    (GetImage (stubNet (.ok halfRedTile) (.ok bigGreyTile))
        (primaryURL 1 2 3 TilesTypeVert "key" 0) = .ok halfRedTile ∧
      imageIsOpaque halfRedTile = false ∧
      GetImage (stubNet (.ok halfRedTile) (.ok bigGreyTile)) (OpenStreetMapURL 1 2 3) =
        .ok bigGreyTile) ∧
    (NearmapTilesV3OverOpenStreetMap (stubNet (.ok halfRedTile) (.ok bigGreyTile))
        1 2 3 TilesTypeVert "key" 0).1.Bounds = tileRect :=
  ⟨⟨rfl, rfl, rfl⟩,
    (compositor_result_size (stubNet (.ok halfRedTile) (.ok bigGreyTile))
      1 2 3 TilesTypeVert "key" 0).2.1 halfRedTile bigGreyTile rfl rfl rfl⟩

/-! ## Lemmas: the fetched URLs -/

theorem isDigit_value_le (c : Char) (h : c.isDigit = true) : c.toNat - '0'.toNat ≤ 9 := by
  have h2 : c.toNat ≤ 57 := by
    simp only [Char.isDigit, Bool.and_eq_true, decide_eq_true_eq, ge_iff_le] at h
    exact h.2
  have h0 : '0'.toNat = 48 := rfl
  omega

theorem digitsValue_lt (ds : List Char) :
    ∀ k, (∀ c ∈ ds, c.isDigit = true) → digitsValue k ds < (k + 1) * 10 ^ ds.length := by
  induction ds with
  | nil => intro k _; simp [digitsValue]
  | cons c cs ih =>
    intro k h
    have hc := isDigit_value_le c (h c (List.mem_cons_self _ _))
    have h1 := ih (k * 10 + (c.toNat - '0'.toNat)) (fun d hd => h d (List.mem_cons_of_mem _ hd))
    have h2 : (k * 10 + (c.toNat - '0'.toNat) + 1) * 10 ^ cs.length ≤
        ((k + 1) * 10) * 10 ^ cs.length := Nat.mul_le_mul_right _ (by omega)
    rw [digitsValue_cons, List.length_cons, pow_succ]
    calc digitsValue (k * 10 + (c.toNat - '0'.toNat)) cs
        < (k * 10 + (c.toNat - '0'.toNat) + 1) * 10 ^ cs.length := h1
      _ ≤ ((k + 1) * 10) * 10 ^ cs.length := h2
      _ = (k + 1) * (10 ^ cs.length * 10) := by ring

theorem toDigits_length_ge_four (n : Nat) (h : 1000 ≤ n) : 4 ≤ (Nat.toDigits 10 n).length := by
  have hv : digitsValue 0 (Nat.toDigits 10 n) = n := by
    have := decimalValue_formatInt n
    rw [formatInt_natCast] at this
    exact this
  have hd : ∀ c ∈ Nat.toDigits 10 n, c.isDigit = true := by
    have := (isDigits_formatInt n).2
    rw [formatInt_natCast] at this
    exact this
  have hlt := digitsValue_lt (Nat.toDigits 10 n) 0 hd
  rw [hv] at hlt
  by_contra hlen
  have hle : 10 ^ (Nat.toDigits 10 n).length ≤ 10 ^ 3 :=
    Nat.pow_le_pow_right (by decide) (by omega)
  omega

theorem formatIntZeroPad_four (year : Int) (h : 1000 ≤ year) :
    formatIntZeroPad 4 year = formatInt year := by
  have hneg : ¬ year < 0 := by omega
  have hlen := toDigits_length_ge_four year.natAbs (by omega)
  have hz : 4 - (Nat.toDigits 10 year.natAbs).length = 0 := by omega
  simp [formatIntZeroPad, formatInt, hneg, hz]

theorem NearmapTilesV3DateIMGURL_eq (x y z : Int) (tilestype apikey : String) (year : Int)
    (h : 2000 ≤ year) :
    NearmapTilesV3DateIMGURL x y z tilestype apikey year =
      "https://api.nearmap.com/tiles/v3/" ++ tilestype ++ "/" ++ formatInt z ++ "/" ++
        formatInt x ++ "/" ++ formatInt y ++ ".img?since=" ++ formatInt year ++
        "-01-01&until=" ++ formatInt year ++ "-12-31&apikey=" ++ apikey := by
  have e1 : formatIntZeroPad 2 1 = "01" := by decide
  have e12 : formatIntZeroPad 2 12 = "12" := by decide
  have e31 : formatIntZeroPad 2 31 = "31" := by decide
  unfold NearmapTilesV3DateIMGURL
  rw [formatIntZeroPad_four year (by omega), e1, e12, e31]
  apply String.ext
  simp [String.data_append, List.append_assoc]

theorem compositor_fetched (net : Net) (x y z : Int) (tilestype apikey : String) (year : Int) :
    (NearmapTilesV3OverOpenStreetMap net x y z tilestype apikey year).2 =
      match GetImage net (primaryURL x y z tilestype apikey year) with
      | .ok nm =>
        if imageIsOpaque nm = true then [primaryURL x y z tilestype apikey year]
        else [primaryURL x y z tilestype apikey year, OpenStreetMapURL x y z]
      | .error _ => [primaryURL x y z tilestype apikey year, OpenStreetMapURL x y z] := by
  unfold primaryURL NearmapTilesV3OverOpenStreetMap
  simp only
  cases hNM : GetImage net (if year ≥ 2000 then NearmapTilesV3DateIMGURL x y z tilestype apikey year
      else NearmapTilesV3IMGURL x y z tilestype apikey) with
  | error e =>
    cases hOSM : GetImage net (OpenStreetMapURL x y z) <;> simp
  | ok nm =>
    cases hmodel : imageIsOpaque nm
    · cases hOSM : GetImage net (OpenStreetMapURL x y z) <;> simp [hmodel]
    · simp [hmodel]

theorem compositor_fetched_head (net : Net) (x y z : Int) (tilestype apikey : String)
    (year : Int) :
    (NearmapTilesV3OverOpenStreetMap net x y z tilestype apikey year).2.head? =
      some (primaryURL x y z tilestype apikey year) := by
  rw [compositor_fetched]
  split
  · split <;> rfl
  · rfl

/-! ## The claims on URLs, fetch order and the handler -/

/-- C13: the first URL the compositor fetches is, for `year ≥ 2000`, the
dated URL ".../tiles/v3/{type}/{z}/{x}/{y}.img?since=YYYY-01-01&until=YYYY-12-31&apikey={key}"
with YYYY the year in decimal, and for every `year < 2000` the undated URL
".../tiles/v3/{type}/{z}/{x}/{y}.img?apikey={key}"; `renderTile` passes the
year 0 and the type "Vert", so its first fetch is the undated URL. -/
theorem compositor_first_url (net : Net) (x y z : Int) (tilestype apikey : String)
    (year : Int) :
    (2000 ≤ year →
      (NearmapTilesV3OverOpenStreetMap net x y z tilestype apikey year).2.head? =
        some ("https://api.nearmap.com/tiles/v3/" ++ tilestype ++ "/" ++ formatInt z ++ "/" ++
          formatInt x ++ "/" ++ formatInt y ++ ".img?since=" ++ formatInt year ++
          "-01-01&until=" ++ formatInt year ++ "-12-31&apikey=" ++ apikey)) ∧
    (year < 2000 →
      (NearmapTilesV3OverOpenStreetMap net x y z tilestype apikey year).2.head? =
        some ("https://api.nearmap.com/tiles/v3/" ++ tilestype ++ "/" ++ formatInt z ++ "/" ++
          formatInt x ++ "/" ++ formatInt y ++ ".img?apikey=" ++ apikey)) ∧
    (∀ coords : TileCoords, (renderTile net apikey coords).2.head? =
        some ("https://api.nearmap.com/tiles/v3/" ++ "Vert" ++ "/" ++ formatInt coords.Z ++
          "/" ++ formatInt coords.X ++ "/" ++ formatInt coords.Y ++ ".img?apikey=" ++
          apikey)) := by
  refine ⟨?_, ?_, ?_⟩
  · intro h
    rw [compositor_fetched_head, ← NearmapTilesV3DateIMGURL_eq x y z tilestype apikey year h]
    simp only [primaryURL, ge_iff_le, h, if_true]
  · intro h
    have h2 : ¬ (2000 ≤ year) := by omega
    rw [compositor_fetched_head]
    simp only [primaryURL, ge_iff_le, h2, if_false]
    rfl
  · intro coords
    unfold renderTile
    rw [compositor_fetched_head]
    rfl

/-- C13 at concrete inputs: the year 2019 gives the dated URL, the year 0
the undated one. -/
theorem compositor_first_url_witness :
    ((2000 : Int) ≤ 2019 ∧ (0 : Int) < 2000) ∧
    (NearmapTilesV3OverOpenStreetMap (stubNet (.ok greyTile) (.ok whiteTile))
        1 2 3 "Vert" "key" 2019).2.head? =
      some "https://api.nearmap.com/tiles/v3/Vert/3/1/2.img?since=2019-01-01&until=2019-12-31&apikey=key" ∧
    (NearmapTilesV3OverOpenStreetMap (stubNet (.ok greyTile) (.ok whiteTile))
        1 2 3 "Vert" "key" 0).2.head? =
      some "https://api.nearmap.com/tiles/v3/Vert/3/1/2.img?apikey=key" :=
  ⟨by decide,
    (compositor_first_url (stubNet (.ok greyTile) (.ok whiteTile)) 1 2 3 "Vert" "key" 2019).1
      (by decide),
    (compositor_first_url (stubNet (.ok greyTile) (.ok whiteTile)) 1 2 3 "Vert" "key" 0).2.1
      (by decide)⟩

/-- The fetch list of the compositor as the code decides it: the primary URL
comes first; the fallback URL
"https://tile.openstreetmap.org/{z}/{x}/{y}.png" comes second and once,
exactly when the primary fetch failed or gave an image for which
`imageIsOpaque` answers false; the fetched URLs are pairwise different, and
there are one or two of them. -/
theorem compositor_fetch_order (net : Net) (x y z : Int) (tilestype apikey : String)
    (year : Int) :
    (NearmapTilesV3OverOpenStreetMap net x y z tilestype apikey year).2.head? =
        some (primaryURL x y z tilestype apikey year) ∧
    ((NearmapTilesV3OverOpenStreetMap net x y z tilestype apikey year).2 =
        [primaryURL x y z tilestype apikey year] ∨
      (NearmapTilesV3OverOpenStreetMap net x y z tilestype apikey year).2 =
        [primaryURL x y z tilestype apikey year, OpenStreetMapURL x y z]) ∧
    (OpenStreetMapURL x y z ∈
        (NearmapTilesV3OverOpenStreetMap net x y z tilestype apikey year).2 ↔
      ((∃ err, GetImage net (primaryURL x y z tilestype apikey year) = .error err) ∨
        ∃ nm, GetImage net (primaryURL x y z tilestype apikey year) = .ok nm ∧
          imageIsOpaque nm = false)) ∧
    (NearmapTilesV3OverOpenStreetMap net x y z tilestype apikey year).2.Nodup ∧
    ((NearmapTilesV3OverOpenStreetMap net x y z tilestype apikey year).2.length = 1 ∨
      (NearmapTilesV3OverOpenStreetMap net x y z tilestype apikey year).2.length = 2) ∧
    OpenStreetMapURL x y z =
      "https://tile.openstreetmap.org/" ++ formatInt z ++ "/" ++ formatInt x ++ "/" ++
        formatInt y ++ ".png" := by
  have hne := OpenStreetMapURL_ne_primaryURL x y z tilestype apikey year
  have hne2 : primaryURL x y z tilestype apikey year ≠ OpenStreetMapURL x y z :=
    fun h => hne h.symm
  refine ⟨compositor_fetched_head net x y z tilestype apikey year, ?_, ?_, ?_, ?_, rfl⟩
  all_goals rw [compositor_fetched]
  all_goals cases hNM : GetImage net (primaryURL x y z tilestype apikey year) with
    | error e => simp [hne2]
    | ok nm => cases hmodel : imageIsOpaque nm <;> simp [hne, hne2, hmodel]

/-- C14: for every path that `extractTileCoords` rejects, the handler answers
400 with the fixed plain-text body "bad request" (and a newline), whatever
the path and the error; it fetches nothing, and only the log receives the
error. -/
theorem tileServer_bad_request (intSize : Nat) (net : Net) (apikey : String)
    (pngEncode : Image → List Nat × Option String) (path : String) (err : TileError)
    (h : extractTileCoords intSize path = .error err) :
    (tileServer intSize net apikey pngEncode path).StatusCode = 400 ∧
    (tileServer intSize net apikey pngEncode path).ContentType =
      some "text/plain; charset=utf-8" ∧
    (tileServer intSize net apikey pngEncode path).Body = [.text "bad request\n"] ∧
    (tileServer intSize net apikey pngEncode path).Fetched = [] ∧
    (tileServer intSize net apikey pngEncode path).Logged = [err] := by
  unfold tileServer
  rw [h]
  exact ⟨rfl, rfl, rfl, rfl, rfl⟩

/-- C14 at two rejected paths, one malformed and one out of range: the
responses are the same. -/
theorem tileServer_bad_request_witness :
    (extractTileCoords 64 "/abc/1/1.png" = .error (.notEnoughMatches 0) ∧
      extractTileCoords 64 "/3/8/0.png" = .error (.invalidTileCoordinates ⟨3, 8, 0⟩)) ∧
    ((tileServer 64 (stubNet (.ok greyTile) (.ok whiteTile)) "key" (fun _ => ([], none))
        "/abc/1/1.png").Body = [.text "bad request\n"] ∧
      (tileServer 64 (stubNet (.ok greyTile) (.ok whiteTile)) "key" (fun _ => ([], none))
        "/3/8/0.png").Body = [.text "bad request\n"]) :=
  ⟨by decide,
    (tileServer_bad_request 64 (stubNet (.ok greyTile) (.ok whiteTile)) "key"
      (fun _ => ([], none)) "/abc/1/1.png" (.notEnoughMatches 0) (by decide)).2.2.1,
    (tileServer_bad_request 64 (stubNet (.ok greyTile) (.ok whiteTile)) "key"
      (fun _ => ([], none)) "/3/8/0.png" (.invalidTileCoordinates ⟨3, 8, 0⟩)
      (by decide)).2.2.1⟩

/-- C15 fails on the code: the primary provider answers a paletted image
whose palette entry is fully transparent, so its colour model is not opaque;
the compositor fetches the primary URL only, and the fallback URL is not
fetched. -/
theorem compositor_skips_fallback_for_transparent_palette :
    GetImage (stubNet (.ok transparentPalettedTile) (.ok whiteTile))
        (primaryURL 1 2 3 TilesTypeVert "key" 0) = .ok transparentPalettedTile ∧
    transparentPalettedTile.ColorModel = .Palette [⟨0, 0, 0, 0⟩] ∧
    (NearmapTilesV3OverOpenStreetMap (stubNet (.ok transparentPalettedTile) (.ok whiteTile))
        1 2 3 TilesTypeVert "key" 0).2 =
      ["https://api.nearmap.com/tiles/v3/Vert/3/1/2.img?apikey=key"] ∧
    OpenStreetMapURL 1 2 3 = "https://tile.openstreetmap.org/3/1/2.png" ∧
    OpenStreetMapURL 1 2 3 ∉
      (NearmapTilesV3OverOpenStreetMap (stubNet (.ok transparentPalettedTile) (.ok whiteTile))
        1 2 3 TilesTypeVert "key" 0).2 :=
  ⟨rfl, rfl, by decide, by decide, by decide⟩

/-- C16 fails on the code: `imageIsOpaque` answers true for a paletted image
whose palette entry is fully transparent and for a Y'CbCr-with-alpha image,
and the compositor then returns the transparent primary after one fetch. -/
theorem imageIsOpaque_accepts_transparent_models :
    imageIsOpaque transparentPalettedTile = true ∧
    (transparentPalettedTile.At 0 0).A = 0 ∧
    imageIsOpaque (uniformTile .NYCbCrAModel ⟨0, 0, 0, 0⟩) = true ∧
    NearmapTilesV3OverOpenStreetMap (stubNet (.ok transparentPalettedTile) (.ok whiteTile))
        1 2 3 TilesTypeVert "key" 0 =
      (transparentPalettedTile, [primaryURL 1 2 3 TilesTypeVert "key" 0]) :=
  ⟨rfl, rfl, rfl, rfl⟩

/-! ## The claims on GetImage -/

theorem GetImageBodies_result (net : Net) (url : String) (s : Bodies) :
    (GetImageBodies net url s).1 = GetImage net url := by
  unfold GetImageBodies GetImage
  cases net.Get url with
  | error e => rfl
  | ok response =>
    simp only
    split
    · rfl
    · cases net.Decode response.Body <;> rfl

theorem GetImageBodies_status_200 (net : Net) (url : String) (s : Bodies) (response : Response)
    (hget : net.Get url = .ok response) (h200 : response.StatusCode = 200) :
    (GetImageBodies net url s).2 = ⟨s.Opened + 1, s.Closed + 1⟩ := by
  unfold GetImageBodies
  rw [hget]
  simp only [h200, ne_eq, not_true_eq_false, if_false]
  cases net.Decode response.Body <;> rfl

/-- C17 fails on the code: when the GET is answered with status 404,
`GetImage` returns with the body it obtained still open (one opened, none
closed), because it returns before the deferred `Close` is registered. -/
theorem GetImageBodies_leaks_on_404 :
    notFoundNet.Get "https://tile.openstreetmap.org/3/1/2.png" = .ok ⟨404, []⟩ ∧
    (GetImageBodies notFoundNet "https://tile.openstreetmap.org/3/1/2.png" ⟨0, 0⟩).2 =
      ⟨1, 0⟩ :=
  ⟨rfl, rfl⟩

/-- C18: every transport error and every non-200 status give the same
generic error of `GetImage`; on status 200 a decode failure gives the
decoder's error, which is not the generic one; and `GetImage` returns an
image exactly when the transport succeeded, the status is 200 and the decode
succeeded, the image being the decoded one. -/
theorem GetImage_results (net : Net) (url : String) :
    (∀ e, net.Get url = .error e → GetImage net url = .error .errorFetchingImage) ∧
    (∀ response, net.Get url = .ok response → response.StatusCode ≠ 200 →
      GetImage net url = .error .errorFetchingImage) ∧
    (∀ response e, net.Get url = .ok response → response.StatusCode = 200 →
      net.Decode response.Body = .error e →
      GetImage net url = .error (.decode e) ∧
        GetImageError.decode e ≠ GetImageError.errorFetchingImage) ∧
    (∀ img, GetImage net url = .ok img ↔
      ∃ response, net.Get url = .ok response ∧ response.StatusCode = 200 ∧
        net.Decode response.Body = .ok img) := by
  refine ⟨?_, ?_, ?_, ?_⟩
  · intro e h
    simp only [GetImage, h]
  · intro response h hs
    simp only [GetImage, h, hs, ne_eq, not_false_eq_true, if_true]
  · intro response e h hs hd
    refine ⟨?_, by simp⟩
    simp only [GetImage, h, hs, ne_eq, not_true_eq_false, if_false, hd]
  · intro img
    unfold GetImage
    cases hget : net.Get url with
    | error e => simp
    | ok response =>
      by_cases hs : response.StatusCode = 200
      · cases hd : net.Decode response.Body <;> simp [hs, hd]
      · simp [hs]

/-- C18 with test doubles: a 404 answer gives the generic error, a body that
does not decode gives the decoder's error, and a decodable body the image. -/
theorem GetImage_results_witness :
    GetImage notFoundNet "u" = .error .errorFetchingImage ∧
    GetImage (stubNet (.error "bad header") (.ok whiteTile)) "u" =
      .error (.decode "bad header") ∧
    ∃ response, (stubNet (.ok greyTile) (.ok whiteTile)).Get "u" = .ok response ∧
      response.StatusCode = 200 ∧
      (stubNet (.ok greyTile) (.ok whiteTile)).Decode response.Body = .ok greyTile :=
  ⟨(GetImage_results notFoundNet "u").2.1 ⟨404, []⟩ rfl (by decide),
    ((GetImage_results (stubNet (.error "bad header") (.ok whiteTile)) "u").2.2.1
      ⟨200, "u".data.map Char.toNat⟩ "bad header" rfl rfl rfl).1,
    ((GetImage_results (stubNet (.ok greyTile) (.ok whiteTile)) "u").2.2.2 greyTile).mp rfl⟩

/-! ## The claims on parse errors and the URL round trip -/

/-- C19: on a path of the fixed shape, a digit run that does not fit the
machine integer (its value is at least `2^(intSize-1)`) makes
`extractTileCoords` return the error that names the field, z before x before
y; the range check (the invalid-coordinates error, or success) is reached
only when all three runs fit. -/
theorem extractTileCoords_parse_errors (intSize : Nat) (hw : intSize = 32 ∨ intSize = 64)
    (a b c : String) (ha : IsDigits a) (hb : IsDigits b) (hc : IsDigits c) :
    (¬ decimalValue a < 2 ^ (intSize - 1) →
      extractTileCoords intSize (shapePath a b c) = .error (.extractingZ .ErrRange)) ∧
    (decimalValue a < 2 ^ (intSize - 1) → ¬ decimalValue b < 2 ^ (intSize - 1) →
      extractTileCoords intSize (shapePath a b c) = .error (.extractingX .ErrRange)) ∧
    (decimalValue a < 2 ^ (intSize - 1) → decimalValue b < 2 ^ (intSize - 1) →
      ¬ decimalValue c < 2 ^ (intSize - 1) →
      extractTileCoords intSize (shapePath a b c) = .error (.extractingY .ErrRange)) ∧
    ((∃ coords, extractTileCoords intSize (shapePath a b c) =
          .error (.invalidTileCoordinates coords) ∨
        extractTileCoords intSize (shapePath a b c) = .ok coords) →
      decimalValue a < 2 ^ (intSize - 1) ∧ decimalValue b < 2 ^ (intSize - 1) ∧
        decimalValue c < 2 ^ (intSize - 1)) := by
  obtain ⟨h1, h64⟩ := intSize_bounds intSize hw
  rw [extractTileCoords_shape intSize h1 h64 a b c ha hb hc]
  refine ⟨?_, ?_, ?_, ?_⟩
  · intro hz
    rw [if_pos hz]
  · intro hz hx
    rw [if_neg (not_not.mpr hz), if_pos hx]
  · intro hz hx hy
    rw [if_neg (not_not.mpr hz), if_neg (not_not.mpr hx), if_pos hy]
  · rintro ⟨coords, h⟩
    by_cases hz : decimalValue a < 2 ^ (intSize - 1)
    · by_cases hx : decimalValue b < 2 ^ (intSize - 1)
      · by_cases hy : decimalValue c < 2 ^ (intSize - 1)
        · exact ⟨hz, hx, hy⟩
        · rw [if_neg (not_not.mpr hz), if_neg (not_not.mpr hx), if_pos hy] at h
          simp at h
      · rw [if_neg (not_not.mpr hz), if_pos hx] at h
        simp at h
    · rw [if_pos hz] at h
      simp at h

/-- C19 at concrete paths on a 64-bit `int`: 2^63 does not fit, and the error
names z, then x, then y. -/
theorem extractTileCoords_parse_errors_witness :
    (IsDigits "9223372036854775808" ∧ IsDigits "1" ∧
      ¬ decimalValue "9223372036854775808" < 2 ^ (64 - 1) ∧ decimalValue "1" < 2 ^ (64 - 1)) ∧
    extractTileCoords 64 (shapePath "9223372036854775808" "9223372036854775808" "1") =
      .error (.extractingZ .ErrRange) ∧
    extractTileCoords 64 (shapePath "1" "9223372036854775808" "9223372036854775808") =
      .error (.extractingX .ErrRange) ∧
    extractTileCoords 64 (shapePath "1" "1" "9223372036854775808") =
      .error (.extractingY .ErrRange) :=
  ⟨by decide,
    (extractTileCoords_parse_errors 64 (Or.inr rfl) "9223372036854775808"
      "9223372036854775808" "1" (by decide) (by decide) (by decide)).1 (by decide),
    (extractTileCoords_parse_errors 64 (Or.inr rfl) "1" "9223372036854775808"
      "9223372036854775808" (by decide) (by decide) (by decide)).2.1 (by decide) (by decide),
    (extractTileCoords_parse_errors 64 (Or.inr rfl) "1" "1" "9223372036854775808"
      (by decide) (by decide) (by decide)).2.2.1 (by decide) (by decide) (by decide)⟩

theorem accepted_coords_bounds (intSize : Nat) (hw : intSize = 32 ∨ intSize = 64)
    (path : String) (coords : TileCoords)
    (h : extractTileCoords intSize path = .ok coords) :
    ∃ z x y : Nat, coords = ⟨z, x, y⟩ ∧ z + 2 ≤ intSize ∧ x < 2 ^ z ∧ y < 2 ^ z := by
  obtain ⟨h1, h64⟩ := intSize_bounds intSize hw
  rcases FindStringSubmatch_cases path with h0 | ⟨a, b, c, ha, hb, hc, rfl⟩
  · rw [extractTileCoords_nil intSize path h0] at h
    exact absurd h (by simp)
  · rw [extractTileCoords_shape intSize h1 h64 a b c ha hb hc] at h
    split at h
    · exact absurd h (by simp)
    · split at h
      · exact absurd h (by simp)
      · split at h
        · exact absurd h (by simp)
        · split at h
          · exact absurd h (by simp)
          · rename_i hok
            simp only [Except.ok.injEq] at h
            have hz : decimalValue a + 2 ≤ intSize := by
              by_contra hcon
              have := shiftLeft_one_nonpos intSize (decimalValue a) (by omega)
              omega
            rw [shiftLeft_one_eq intSize _ hz] at hok
            refine ⟨decimalValue a, decimalValue b, decimalValue c, h.symm, hz, ?_, ?_⟩
            · have : (decimalValue b : Int) < (2 : Int) ^ decimalValue a := by omega
              exact_mod_cast this
            · have : (decimalValue c : Int) < (2 : Int) ^ decimalValue a := by omega
              exact_mod_cast this

theorem tilePath_accepted (intSize : Nat) (hw : intSize = 32 ∨ intSize = 64) (z x y : Nat)
    (hz : z + 2 ≤ intSize) (hx : x < 2 ^ z) (hy : y < 2 ^ z) :
    extractTileCoords intSize (tilePath z x y) = .ok ⟨z, x, y⟩ := by
  obtain ⟨h1, h64⟩ := intSize_bounds intSize hw
  have hpow : 2 ^ z < 2 ^ (intSize - 1) := Nat.pow_lt_pow_right (by decide) (by omega)
  have hzlt : z < 2 ^ (intSize - 1) := Nat.lt_trans (Nat.lt_two_pow z) hpow
  have hxi : ¬ ((x : Int) ≥ (2 : Int) ^ z) := by
    have : (x : Int) < (2 : Int) ^ z := by exact_mod_cast hx
    omega
  have hyi : ¬ ((y : Int) ≥ (2 : Int) ^ z) := by
    have : (y : Int) < (2 : Int) ^ z := by exact_mod_cast hy
    omega
  unfold tilePath
  rw [extractTileCoords_shape intSize h1 h64 _ _ _ (isDigits_formatInt z)
    (isDigits_formatInt x) (isDigits_formatInt y)]
  simp only [decimalValue_formatInt, shiftLeft_one_eq intSize z hz]
  rw [if_neg (by omega), if_neg (by omega), if_neg (by omega), if_neg (by tauto)]

/-- C20: for every `TileCoords` c that `extractTileCoords` returns,
`OpenStreetMapURL(c.X, c.Y, c.Z)` is "https://tile.openstreetmap.org"
followed by the path "/Z/X/Y.png", and `extractTileCoords` accepts that path
and returns c again. -/
theorem OpenStreetMapURL_round_trip (intSize : Nat) (hw : intSize = 32 ∨ intSize = 64)
    (path : String) (c : TileCoords) (h : extractTileCoords intSize path = .ok c) :
    OpenStreetMapURL c.X c.Y c.Z = "https://tile.openstreetmap.org" ++ tilePath c.Z c.X c.Y ∧
      extractTileCoords intSize (tilePath c.Z c.X c.Y) = .ok c := by
  constructor
  · apply String.ext
    simp [OpenStreetMapURL, tilePath, shapePath, String.data_append, List.append_assoc]
  · obtain ⟨z, x, y, rfl, hz, hx, hy⟩ := accepted_coords_bounds intSize hw path c h
    exact tilePath_accepted intSize hw z x y hz hx hy

/-- C20 at the accepted path "/4/5/9.png": the basemap URL is
"https://tile.openstreetmap.org/4/5/9.png" and its path gives {4 5 9} again. -/
theorem OpenStreetMapURL_round_trip_witness :
    extractTileCoords 64 "/4/5/9.png" = .ok ⟨4, 5, 9⟩ ∧
    OpenStreetMapURL 5 9 4 = "https://tile.openstreetmap.org/4/5/9.png" ∧
    extractTileCoords 64 (tilePath 4 5 9) = .ok ⟨4, 5, 9⟩ :=
  ⟨by decide, by decide,
    (OpenStreetMapURL_round_trip 64 (Or.inr rfl) "/4/5/9.png" ⟨4, 5, 9⟩ (by decide)).2⟩

end TileViewer
